import Mathlib

/-!
Verification development for the Complex-Threat-Actor-Modelling repository.

The repository has three Python source files:
  * `ThreatIntelligence.py` — ingests threat-group records, OTX pulses and
    Pulsedive records into a Neo4j graph via Cypher MERGE statements;
  * `Analysis.py` — turns the graph into tables and runs timestamp parsing,
    activity classification, IQR outlier removal and PMF computation;
  * `FormatJSON.py` — repairs a malformed JSON feed export.

This file gives a shallow embedding of the data model and the operations of
those scripts, and proves or refutes the frozen claims about them.

Python values (dictionaries, lists, strings, numbers, None) are modelled by
the inductive type `PVal`; Python exceptions by `PyErr`.  The Neo4j graph is
modelled by `GraphState`, a record of node lists (one list per label) plus an
edge list; a Cypher `MERGE` on a node pattern becomes an upsert keyed by the
properties listed in the pattern, and a `MERGE` on a relationship becomes an
insert-if-absent, guarded by the preceding `MATCH` clauses.

Timestamps are modelled by `DateTime` records and compared through their
microsecond count since the proleptic-Gregorian day 0001-01-01 (`toMicros`),
which matches Python `datetime` comparison and arithmetic on valid dates.
-/

/-- Lowercase a string character by character.  This models Python
`str.lower()` for the ASCII names appearing in the feeds (Lean's own
`String.toLower` is definitionally opaque to the kernel, so we map over the
character list instead). -/
def strLower (s : String) : String :=
  String.mk (s.data.map Char.toLower)

/-- Boolean lexicographic order on character lists via code points. -/
def charListLe : List Char → List Char → Bool
  | [], _ => true
  | _ :: _, [] => false
  | a :: as, b :: bs =>
    if a.toNat < b.toNat then true
    else if b.toNat < a.toNat then false
    else charListLe as bs

/-- Boolean lexicographic order on strings, used to model the sorted key
order of `pandas.groupby`. -/
def strLeB (a b : String) : Bool := charListLe a.data b.data

/-- Test whether `pat` occurs as a contiguous substring of `s` (both as
character lists).  Models the Python expression `pat in s` on strings. -/
def listInfix (pat : List Char) : List Char → Bool
  | [] => pat.isEmpty
  | c :: rest => pat.isPrefixOf (c :: rest) || listInfix pat rest

/-- Replace every non-overlapping occurrence of `pat` by `rep`, scanning left
to right.  Models Python `str.replace` for a non-empty pattern.  The first
argument is fuel (the length of the scanned list), keeping the recursion
structural so that the kernel can evaluate it. -/
def replaceChars (pat rep : List Char) : Nat → List Char → List Char
  | _, [] => []
  | 0, l => l
  | fuel + 1, c :: rest =>
    if !pat.isEmpty && pat.isPrefixOf (c :: rest) then
      rep ++ replaceChars pat rep fuel (rest.drop (pat.length - 1))
    else
      c :: replaceChars pat rep fuel rest

/-- String version of `replaceChars`; models Python `raw.replace(pat, rep)`
for the non-empty patterns used by `FormatJSON.py`. -/
def strReplace (s pat rep : String) : String :=
  String.mk (replaceChars pat.data rep.data s.data.length s.data)

/-- Insert an element into a list unless an element already satisfying the
given equality test is present.  Models a Cypher `MERGE` that has no `ON
CREATE`/`ON MATCH` clauses (relationship merges, `Country` and `Alias`
nodes). -/
def insertIfAbsentBy (eqv : α → α → Bool) (x : α) (xs : List α) : List α :=
  if xs.any (eqv x) then xs else xs ++ [x]

/-- Upsert into a node list: if some node satisfies `hit` (the key pattern of
the `MERGE`), apply `upd` (the `ON MATCH SET` clause) to every such node;
otherwise append `mk` (the node built by the pattern plus `ON CREATE SET`). -/
def upsertBy (hit : α → Bool) (upd : α → α) (mk : α) (xs : List α) : List α :=
  if xs.any hit then xs.map (fun x => if hit x then upd x else x) else xs ++ [mk]

/-- Insert a key into a key list if it is not already present (with respect
to the given Boolean equality).  Used to state the upsert lemmas about node
key lists. -/
def insertKeyBy (keq : α → α → Bool) (ks : List α) (k : α) : List α :=
  if ks.any (fun x => keq x k) then ks else ks ++ [k]

/-- Model of a Python runtime exception, as raised by the ingestion code on
malformed records. -/
inductive PyErr where
  | typeError : PyErr
  | keyError : String → PyErr
  | attributeError : PyErr
  | indexError : PyErr
deriving DecidableEq, Repr

/-- Model of a Python/JSON value: strings, integers, floating-point literals
(kept as their lexical token; float arithmetic is never performed by the
repository code), booleans, `None`/`null`, lists and string-keyed
dictionaries. -/
inductive PVal where
  | str : String → PVal
  | int : Int → PVal
  | float : String → PVal
  | bool : Bool → PVal
  | none : PVal
  | list : List PVal → PVal
  | dict : List (String × PVal) → PVal

mutual

/-- Structural equality on `PVal`, modelling Python `==` on the JSON-shaped
values handled by the repository (float literals compare by token). -/
def PVal.beq : PVal → PVal → Bool
  | .str a, .str b => a == b
  | .int a, .int b => a == b
  | .float a, .float b => a == b
  | .bool a, .bool b => a == b
  | .none, .none => true
  | .list a, .list b => PVal.beqList a b
  | .dict a, .dict b => PVal.beqFields a b
  | _, _ => false

/-- Pointwise `PVal.beq` on lists. -/
def PVal.beqList : List PVal → List PVal → Bool
  | [], [] => true
  | a :: as, b :: bs => PVal.beq a b && PVal.beqList as bs
  | _, _ => false

/-- Pointwise `PVal.beq` on dictionary field lists. -/
def PVal.beqFields : List (String × PVal) → List (String × PVal) → Bool
  | [], [] => true
  | (k, a) :: as, (l, b) :: bs => k == l && PVal.beq a b && PVal.beqFields as bs
  | _, _ => false

end

instance : BEq PVal := ⟨PVal.beq⟩

/-- Dictionary field lookup. -/
def PVal.lookupField (k : String) : List (String × PVal) → Option PVal
  | [] => Option.none
  | (l, v) :: rest => if l == k then some v else PVal.lookupField k rest

/-- Model of Python `obj.get(k, default)`: dictionaries return the stored
value or the default; any other receiver raises `AttributeError` (only
dictionaries have a `get` method among the values the feeds produce). -/
def PVal.get : PVal → String → PVal → Except PyErr PVal
  | .dict fields, k, dflt => .ok ((PVal.lookupField k fields).getD dflt)
  | _, _, _ => .error .attributeError

/-- Model of Python `obj[k]` with a string key: dictionaries return the value
or raise `KeyError k`; any other receiver raises `TypeError`. -/
def PVal.item : PVal → String → Except PyErr PVal
  | .dict fields, k =>
    match PVal.lookupField k fields with
    | some v => .ok v
    | Option.none => .error (.keyError k)
  | _, _ => .error .typeError

/-- Model of Python `len(obj)` for strings, lists and dictionaries; other
receivers raise `TypeError`. -/
def PVal.len : PVal → Except PyErr Nat
  | .str s => .ok s.length
  | .list xs => .ok xs.length
  | .dict fields => .ok fields.length
  | _ => .error .typeError

/-- Model of Python `obj[0]`: lists yield their first element or raise
`IndexError`; strings yield their first character as a one-character string;
other receivers raise `TypeError`. -/
def PVal.index0 : PVal → Except PyErr PVal
  | .list [] => .error .indexError
  | .list (x :: _) => .ok x
  | .str s =>
    match s.data with
    | [] => .error .indexError
    | c :: _ => .ok (.str (String.mk [c]))
  | _ => .error .typeError

/-- Model of Python iteration `for x in obj`: lists yield their elements,
strings their characters (as one-character strings), dictionaries their keys;
other receivers raise `TypeError`. -/
def PVal.iter : PVal → Except PyErr (List PVal)
  | .list xs => .ok xs
  | .str s => .ok (s.data.map (fun c => .str (String.mk [c])))
  | .dict fields => .ok (fields.map (fun f => .str f.1))
  | _ => .error .typeError

/-- Model of Python `obj.items()`: defined on dictionaries only, anything
else raises `AttributeError`. -/
def PVal.itemsOf : PVal → Except PyErr (List (String × PVal))
  | .dict fields => .ok fields
  | _ => .error .attributeError

/-- Model of Python `obj.lower()`: defined on strings only; in particular
`None.lower()` (a missing `threat` field) raises `AttributeError`. -/
def PVal.lowerP : PVal → Except PyErr String
  | .str s => .ok (strLower s)
  | _ => .error .attributeError

/-- Model of `isinstance(obj, list)`. -/
def PVal.isListB : PVal → Bool
  | .list _ => true
  | _ => false

/-- Model of `isinstance(obj, dict)`. -/
def PVal.isDictB : PVal → Bool
  | .dict _ => true
  | _ => false

/-- Model of the Python membership test `k in obj` for a string `k`:
dictionaries test key membership, lists test element equality, strings test
for a substring; other receivers raise `TypeError`. -/
def PVal.containsStr : PVal → String → Except PyErr Bool
  | .dict fields, k => .ok (fields.any (fun f => f.1 == k))
  | .list xs, k => .ok (xs.any (fun x => PVal.beq x (.str k)))
  | .str s, k => .ok (listInfix k.data s.data)
  | _, _ => .error .typeError

/-- Model of Python truthiness for the `technique_list` check: a non-empty
list is truthy.  The source guards with `isinstance(technique_list, list) and
technique_list`, so only the list case is ever reached. -/
def PVal.truthyList : PVal → Bool
  | .list xs => !xs.isEmpty
  | _ => false

/-- Node created by `MERGE (tg:ThreatGroup {name: $name}) SET tg.description`
in `store_threat_groups` (key: `name`). -/
structure ThreatGroupNode where
  name : PVal
  description : PVal

/-- Node created by the Pulse `MERGE` in `store_pulses` (key: the pattern
properties `name` and `group`; the remaining attributes are set by the
`ON CREATE SET` / `ON MATCH SET` clauses). -/
structure PulseNode where
  name : PVal
  group : PVal
  createdBy : PVal
  id : PVal
  description : PVal
  created : PVal
  malware_families : PVal
  targeted_countries : PVal
  industries : PVal

/-- Node created by the RelatedEntity `MERGE` in `store_pulsedive_info`
(all four properties are part of the key pattern). -/
structure REntityNode where
  tid : PVal
  name : PVal
  category : PVal
  risk : PVal

/-- Node created by the Tactic `MERGE` in `store_pulsedive_info` (key:
`name`, `group`; `createdBy` is set `ON CREATE`). -/
structure TacticNode where
  name : String
  group : PVal
  createdBy : PVal

/-- Node created by the Technique `MERGE` in `store_pulsedive_info` (key:
`name`, `group`; `createdBy` is set `ON CREATE`). -/
structure TechniqueNode where
  name : PVal
  group : PVal
  createdBy : PVal

/-- Relationships of the graph.  A relationship `MERGE` in the source is an
insert-if-absent of one of these values; endpoints are identified by their
node keys, exactly as the `MATCH`/`MERGE` patterns identify them. -/
inductive Edge where
  | hasAlias : PVal → PVal → Edge
  | relatedTo : PVal → PVal → PVal → Edge
  | originatesFrom : PVal → PVal → Edge
  | usesEntity : PVal → PVal → PVal → PVal → PVal → Edge
  | usesTactic : PVal → String → Edge
  | tacticTechnique : String → PVal → PVal → Edge

/-- Structural equality of edges (the relationship identity used by a
relationship `MERGE`). -/
def Edge.beq : Edge → Edge → Bool
  | .hasAlias a b, .hasAlias c d => PVal.beq a c && PVal.beq b d
  | .relatedTo a b c, .relatedTo d e f => PVal.beq a d && PVal.beq b e && PVal.beq c f
  | .originatesFrom a b, .originatesFrom c d => PVal.beq a c && PVal.beq b d
  | .usesEntity a b c d e, .usesEntity f g h i j =>
    PVal.beq a f && PVal.beq b g && PVal.beq c h && PVal.beq d i && PVal.beq e j
  | .usesTactic a b, .usesTactic c d => PVal.beq a c && b == d
  | .tacticTechnique a b c, .tacticTechnique d e f => a == d && PVal.beq b e && PVal.beq c f
  | _, _ => false

/-- The labelled property graph held by the Neo4j database: one node list
per label plus the relationship list. -/
structure GraphState where
  threatGroups : List ThreatGroupNode
  aliases : List PVal
  pulses : List PulseNode
  relEntities : List REntityNode
  tactics : List TacticNode
  techniques : List TechniqueNode
  countries : List PVal
  edges : List Edge

/-- The empty graph. -/
def GraphState.empty : GraphState := ⟨[], [], [], [], [], [], [], []⟩

/-- Model of `MATCH (n) DETACH DELETE n` (line 31 of
`ThreatIntelligence.py`): every node and relationship is removed. -/
def wipeAll (_ : GraphState) : GraphState := GraphState.empty

/-- Whether a `MATCH (tg:ThreatGroup {name: $g})` clause finds a node. -/
def hasThreatGroup (s : GraphState) (g : PVal) : Bool :=
  s.threatGroups.any (fun n => PVal.beq n.name g)

/-- Whether a `MATCH (p:Pulse {name: $n, group: $g})` clause finds a node. -/
def hasPulse (s : GraphState) (n g : PVal) : Bool :=
  s.pulses.any (fun p => PVal.beq p.name n && PVal.beq p.group g)

/-- Whether a `MATCH (t:Tactic {name: $n, group: $g})` clause finds a node. -/
def hasTactic (s : GraphState) (n : String) (g : PVal) : Bool :=
  s.tactics.any (fun t => t.name == n && PVal.beq t.group g)

/-- Whether a `MATCH (tech:Technique {name: $n, group: $g})` clause finds a
node. -/
def hasTechnique (s : GraphState) (n g : PVal) : Bool :=
  s.techniques.any (fun t => PVal.beq t.name n && PVal.beq t.group g)

/-- Whether a `MATCH (c:Country {code: $c})` clause finds a node. -/
def hasCountry (s : GraphState) (c : PVal) : Bool :=
  s.countries.any (PVal.beq c)

/-- Cypher `COALESCE(v, d)`: the first non-null argument. -/
def coalesceP (v dflt : PVal) : PVal :=
  match v with
  | .none => dflt
  | v => v

/-- Run a per-record step over a list of records, stopping at the first
record whose step raises (the Python exception propagates out of the loop;
graph writes made before the exception are kept, since every statement runs
in its own transaction). -/
def runSteps (step : GraphState → α → GraphState × Option PyErr) :
    GraphState → List α → GraphState × Option PyErr
  | s, [] => (s, Option.none)
  | s, r :: rest =>
    match step s r with
    | (s1, Option.none) => runSteps step s1 rest
    | (s1, some e) => (s1, some e)

/-- One step of the `UNWIND $aliases AS alias` clause (lines 40-42): merge
the Alias node and the HAS_ALIAS relationship from the threat group. -/
def merge_alias (name : PVal) (st : GraphState) (a : PVal) : GraphState :=
  let st1 := { st with aliases := insertIfAbsentBy PVal.beq a st.aliases }
  { st1 with edges := insertIfAbsentBy Edge.beq (.hasAlias name a) st1.edges }

/-- Body of the per-group loop of `store_threat_groups` (lines 34-47): one
Cypher query that upserts the ThreatGroup node, sets its description, and
unwinds the alias list into Alias nodes and HAS_ALIAS relationships.  The
`group.get` calls supply the documented defaults; a non-list `aliases` value
makes the `UNWIND` fail, which surfaces as a driver error before the query
writes anything (modelled as `typeError`). -/
def merge_threat_group (s : GraphState) (rec : PVal) : GraphState × Option PyErr :=
  match rec.get "name" (.str "Unknown") with
  | .error e => (s, some e)
  | .ok name =>
  match rec.get "description" (.str "No description available.") with
  | .error e => (s, some e)
  | .ok desc =>
  match rec.get "aliases" (.list []) with
  | .error e => (s, some e)
  | .ok aliasesV =>
  match aliasesV with
  | .list aliasList =>
    let tgs1 := upsertBy (fun n => PVal.beq n.name name)
      (fun n => { n with description := desc }) ⟨name, desc⟩ s.threatGroups
    let s1 := { s with threatGroups := tgs1 }
    (aliasList.foldl (merge_alias name) s1, Option.none)
  | _ => (s, some .typeError)

/-- Model of `store_threat_groups` (lines 22-47): delete the whole graph,
then upsert every threat-group record. -/
def store_threat_groups (s : GraphState) (threat_groups : List PVal) :
    GraphState × Option PyErr :=
  runSteps merge_threat_group (wipeAll s) threat_groups

/-- The key pattern of the Pulse `MERGE` (line 74): a node matches when its
`name` and `group` properties equal the merge parameters. -/
def pulse_hit (pulse_name group_name : PVal) (p : PulseNode) : Bool :=
  PVal.beq p.name pulse_name && PVal.beq p.group group_name

/-- The `ON MATCH SET` clause of the Pulse `MERGE` (lines 82-87): coalesce
`group` (keeping the stored value, which can never be null) and overwrite
the mutable attributes; `createdBy` and `id` are not touched. -/
def pulse_on_match (group_name desc created mf tc ind : PVal) (p : PulseNode) : PulseNode :=
  { p with
    group := coalesceP p.group group_name,
    description := desc,
    created := created,
    malware_families := mf,
    targeted_countries := tc,
    industries := ind }

/-- The node built by the Pulse `MERGE` pattern plus its `ON CREATE SET`
clause (lines 74-81). -/
def pulse_on_create (pulse_name group_name pid desc created mf tc ind : PVal) : PulseNode :=
  ⟨pulse_name, group_name, group_name, pid, desc, created, mf, tc, ind⟩

/-- The Pulse node upsert of `store_pulses` (lines 73-98). -/
def merge_pulse_node (group_name pulse_name pulse_id desc created mf tc ind : PVal)
    (s : GraphState) : GraphState :=
  let pulses1 := upsertBy (pulse_hit pulse_name group_name)
    (pulse_on_match group_name desc created mf tc ind)
    (pulse_on_create pulse_name group_name pulse_id desc created mf tc ind) s.pulses
  { s with pulses := pulses1 }

/-- The RELATED_TO relationship merge of `store_pulses` (lines 101-108),
guarded by its `MATCH` clauses. -/
def merge_pulse_edge (group_name pulse_name : PVal) (s : GraphState) : GraphState :=
  if hasThreatGroup s group_name && hasPulse s pulse_name group_name then
    { s with edges :=
      insertIfAbsentBy Edge.beq (.relatedTo group_name pulse_name group_name) s.edges }
  else s

/-- Body of the per-pulse loop of `store_pulses` (lines 61-108): extract the
pulse fields with their documented defaults, upsert the Pulse node keyed by
`(name, group)` — `ON CREATE` also sets `createdBy` and `id`, `ON MATCH`
re-sets the mutable attributes and coalesces `group` — then merge the
RELATED_TO relationship, which is created only when the `MATCH` finds both
endpoints. -/
def merge_pulse (group_name : PVal) (s : GraphState) (pulse : PVal) :
    GraphState × Option PyErr :=
  match pulse.get "id" (.str "N/A") with
  | .error e => (s, some e)
  | .ok pulse_id =>
  match pulse.get "name" (.str "N/A") with
  | .error e => (s, some e)
  | .ok pulse_name =>
  match pulse.get "created" (.str "N/A") with
  | .error e => (s, some e)
  | .ok pulse_created =>
  match pulse.get "description" (.str "No description available.") with
  | .error e => (s, some e)
  | .ok pulse_description =>
  match pulse.get "malware_families" (.str "N/A") with
  | .error e => (s, some e)
  | .ok pulse_malware_families =>
  match pulse.get "targeted_countries" (.str "N/A") with
  | .error e => (s, some e)
  | .ok pulse_targeted_countries =>
  match pulse.get "industries" (.str "N/A") with
  | .error e => (s, some e)
  | .ok pulse_industries =>
  (merge_pulse_edge group_name pulse_name
    (merge_pulse_node group_name pulse_name pulse_id pulse_description pulse_created
      pulse_malware_families pulse_targeted_countries pulse_industries s), Option.none)

/-- Model of `store_pulses` (lines 49-110): if the response has a `results`
list, merge each pulse of that list; otherwise print a message and store
nothing. -/
def store_pulses (s : GraphState) (group_name : PVal) (pulses : PVal) :
    GraphState × Option PyErr :=
  match pulses.containsStr "results" with
  | .error e => (s, some e)
  | .ok b =>
    if b then
      match pulses.item "results" with
      | .error e => (s, some e)
      | .ok results =>
        match results with
        | .list rs =>
          if rs.length ≠ 0 then runSteps (merge_pulse group_name) s rs
          else (s, Option.none)
        | _ => (s, Option.none)
    else (s, Option.none)

/-- Lowercase every element of a list of Python values (the comprehension
`[name.lower() for name in othernames]`, line 130); the first non-string
element raises. -/
def lowerAll : List PVal → Except PyErr (List String)
  | [] => .ok []
  | v :: rest =>
    match v.lowerP with
    | .error e => .error e
    | .ok sv =>
      match lowerAll rest with
      | .error e => .error e
      | .ok svs => .ok (sv :: svs)

/-- Body of the per-entity loop of `store_pulsedive_info` (lines 173-192):
extract `tid`, `name`, `category`, `risk` by direct indexing (raising
`KeyError` on a missing field), upsert the RelatedEntity node keyed by all
four properties, then merge a USES relationship from the threat group to
every RelatedEntity whose `tid` matches. -/
def merge_entity (group_name : PVal) (s : GraphState) (entity : PVal) :
    GraphState × Option PyErr :=
  match entity.item "tid" with
  | .error e => (s, some e)
  | .ok tid =>
  match entity.item "name" with
  | .error e => (s, some e)
  | .ok ename =>
  match entity.item "category" with
  | .error e => (s, some e)
  | .ok category =>
  match entity.item "risk" with
  | .error e => (s, some e)
  | .ok risk =>
  let hit := fun n : REntityNode =>
    PVal.beq n.tid tid && PVal.beq n.name ename && PVal.beq n.category category &&
      PVal.beq n.risk risk
  let rel1 := upsertBy hit (fun n => n) ⟨tid, ename, category, risk⟩ s.relEntities
  let s1 := { s with relEntities := rel1 }
  if hasThreatGroup s1 group_name then
    let matched := s1.relEntities.filter (fun n => PVal.beq n.tid tid)
    let es := matched.foldl (fun es n =>
      insertIfAbsentBy Edge.beq (.usesEntity group_name n.tid n.name n.category n.risk) es)
      s1.edges
    ({ s1 with edges := es }, Option.none)
  else (s1, Option.none)

/-- One step of the technique loop of `store_pulsedive_info` (lines
216-234): upsert the per-group Technique node and merge the USES
relationship from the matching Tactic node. -/
def merge_technique (group_name : PVal) (tactic_name : String) (st : GraphState)
    (tech : PVal) : GraphState :=
  let tech1 := upsertBy
    (fun t : TechniqueNode => PVal.beq t.name tech && PVal.beq t.group group_name)
    (fun t => { t with group := coalesceP t.group group_name })
    ⟨tech, group_name, group_name⟩ st.techniques
  let st1 := { st with techniques := tech1 }
  if hasTactic st1 tactic_name group_name && hasTechnique st1 tech group_name then
    { st1 with edges :=
      insertIfAbsentBy Edge.beq (.tacticTechnique tactic_name group_name tech) st1.edges }
  else st1

/-- Body of the per-tactic loop of `store_pulsedive_info` (lines 195-234):
upsert the per-group Tactic node, merge the USES relationship, then for a
non-empty technique list upsert each per-group Technique node and merge the
Tactic-to-Technique USES relationship. -/
def merge_tactic_node (group_name : PVal) (tactic_name : String) (s : GraphState) :
    GraphState :=
  let tac1 := upsertBy
    (fun t : TacticNode => t.name == tactic_name && PVal.beq t.group group_name)
    (fun t => { t with group := coalesceP t.group group_name })
    ⟨tactic_name, group_name, group_name⟩ s.tactics
  { s with tactics := tac1 }

/-- The ThreatGroup-to-Tactic relationship merge of `store_pulsedive_info`
(lines 205-212), guarded by its `MATCH` clauses. -/
def merge_tactic_edge (group_name : PVal) (tactic_name : String) (s : GraphState) :
    GraphState :=
  if hasThreatGroup s group_name && hasTactic s tactic_name group_name then
    { s with edges :=
      insertIfAbsentBy Edge.beq (.usesTactic group_name tactic_name) s.edges }
  else s

/-- The technique loop of `store_pulsedive_info` (lines 214-234), run only
for a non-empty technique list. -/
def merge_ttp_techniques (group_name : PVal) (tactic_name : String)
    (technique_list : PVal) (s : GraphState) : GraphState :=
  if technique_list.isListB && technique_list.truthyList then
    match technique_list with
    | .list techs => techs.foldl (merge_technique group_name tactic_name) s
    | _ => s
  else s

/-- Composition of the three per-tactic phases above, lines 195-234:
first the Tactic node upsert (`MERGE (t:Tactic {name, group}) ON CREATE SET
createdBy ON MATCH SET group = COALESCE(group, $group_name)`), then the
guarded relationship merge, then the technique loop. -/
def merge_ttp (group_name : PVal) (s : GraphState)
    (pair : String × PVal) : GraphState × Option PyErr :=
  (merge_ttp_techniques group_name pair.1 pair.2
    (merge_tactic_edge group_name pair.1
      (merge_tactic_node group_name pair.1 s)), Option.none)

/-- The country block of `store_pulsedive_info` (lines 157-170): when the
country-code list is non-empty, merge a Country node for its first code and
the guarded ORIGINATES_FROM relationship. -/
def merge_country (group_name country : PVal) (s : GraphState) :
    GraphState × Option PyErr :=
  match country.len with
  | .error e => (s, some e)
  | .ok n =>
    if n > 0 then
      match country.index0 with
      | .error e => (s, some e)
      | .ok code =>
        let s1 := { s with countries := insertIfAbsentBy PVal.beq code s.countries }
        let s2 :=
          if hasThreatGroup s1 group_name && hasCountry s1 code then
            { s1 with edges :=
              insertIfAbsentBy Edge.beq (.originatesFrom group_name code) s1.edges }
          else s1
        (s2, Option.none)
    else (s, Option.none)

/-- Model of `store_pulsedive_info` (lines 144-234): store the first country
code (if any) with its ORIGINATES_FROM relationship, then the related
entities, then the tactic/technique map. -/
def store_pulsedive_info (s : GraphState) (group_name related country ttps : PVal) :
    GraphState × Option PyErr :=
  match merge_country group_name country s with
  | (s1, some e) => (s1, some e)
  | (s1, Option.none) =>
  match related.iter with
  | .error e => (s1, some e)
  | .ok entities =>
  match runSteps (merge_entity group_name) s1 entities with
  | (s2, some e) => (s2, some e)
  | (s2, Option.none) =>
  match ttps.itemsOf with
  | .error e => (s2, some e)
  | .ok pairs => runSteps (merge_ttp group_name) s2 pairs

/-- Body of the per-record loop of `fetch_pulsedive_info` (lines 127-142):
read the `threat` name (defaulting to `None`), lowercase the othernames
list, then lowercase the threat name itself — which raises
`AttributeError` when the `threat` field is missing.  If the record matches
the group name (directly or through an othername), extract the related
entities, attributes and TTPs and store them; records whose `attributes`
value is not a dictionary are skipped. -/
def pulsedive_record (group_name : PVal) (s : GraphState) (record : PVal) :
    GraphState × Option PyErr :=
  match record.get "threat" PVal.none with
  | .error e => (s, some e)
  | .ok nameV =>
  match record.get "othernames" (.list []) with
  | .error e => (s, some e)
  | .ok othernamesV =>
  match othernamesV.iter with
  | .error e => (s, some e)
  | .ok onElems =>
  match lowerAll onElems with
  | .error e => (s, some e)
  | .ok othernames =>
  match nameV.lowerP with
  | .error e => (s, some e)
  | .ok nameLower =>
  match group_name.lowerP with
  | .error e => (s, some e)
  | .ok gLower =>
  if nameLower == gLower || othernames.contains gLower then
    match record.get "related" (.list []) with
    | .error e => (s, some e)
    | .ok related =>
    match record.get "attributes" (.dict []) with
    | .error e => (s, some e)
    | .ok attributes =>
    match record.get "ttps" (.dict []) with
    | .error e => (s, some e)
    | .ok ttps =>
    if attributes.isDictB then
      match attributes.get "countrycode" (.list []) with
      | .error e => (s, some e)
      | .ok country_codes => store_pulsedive_info s group_name related country_codes ttps
    else (s, Option.none)
  else (s, Option.none)

/-- Model of `fetch_pulsedive_info` (lines 112-142): `pdData` is the parsed
content of `PulsediveInfo.json`; when it is a list, every record is processed
in order. -/
def fetch_pulsedive_info (pdData : PVal) (s : GraphState) (group_name : PVal) :
    GraphState × Option PyErr :=
  match pdData with
  | .list records => runSteps (pulsedive_record group_name) s records
  | _ => (s, Option.none)

/-- Number of parameters in the definition `def store_pulses(driver,
group_name, pulses)` (line 49 of `ThreatIntelligence.py`). -/
def storePulsesParamCount : Nat := 3

/-- Number of positional arguments in the call `store_pulses(driver,
group_name, pulses, OTX_API_KEY)` (line 302 of `ThreatIntelligence.py`). -/
def storePulsesCallArgCount : Nat := 4

/-- Python call semantics for line 302: the interpreter checks the argument
count against the parameter count of `store_pulses` before running its body,
and raises `TypeError` on a mismatch. -/
def call_store_pulses_line302 (s : GraphState) (group_name pulses : PVal) :
    GraphState × Option PyErr :=
  if storePulsesCallArgCount = storePulsesParamCount then store_pulses s group_name pulses
  else (s, some .typeError)

/-- The per-group loop of `store_threat_group_data` (lines 292-304):
skip groups whose name was already accessed, fetch and store the Pulsedive
data, then invoke `store_pulses` through the arity-checked call of line
302.  `pulsesOf` abstracts the OTX network query `fetch_pulses`. -/
def store_threat_group_data_loop (pdData : PVal) (pulsesOf : PVal → PVal) :
    List PVal → List PVal → GraphState → GraphState × Option PyErr
  | [], _, s => (s, Option.none)
  | g :: rest, accessed, s =>
    match g.get "name" (.str "Unknown") with
    | .error e => (s, some e)
    | .ok group_name =>
      if accessed.any (PVal.beq group_name) then
        store_threat_group_data_loop pdData pulsesOf rest accessed s
      else
        match fetch_pulsedive_info pdData s group_name with
        | (s1, some e) => (s1, some e)
        | (s1, Option.none) =>
          match call_store_pulses_line302 s1 group_name (pulsesOf group_name) with
          | (s2, some e) => (s2, some e)
          | (s2, Option.none) =>
            store_threat_group_data_loop pdData pulsesOf rest (accessed ++ [group_name]) s2

/-- Model of `store_threat_group_data` (lines 269-307): store the threat
groups (wiping the graph first), then run the per-group loop. -/
def store_threat_group_data (threat_groups : List PVal) (pdData : PVal)
    (pulsesOf : PVal → PVal) (s : GraphState) : GraphState × Option PyErr :=
  match store_threat_groups s threat_groups with
  | (s1, some e) => (s1, some e)
  | (s1, Option.none) => store_threat_group_data_loop pdData pulsesOf threat_groups [] s1

/-- One full run of the three merge operations: `store_threat_groups` on the
threat-group records, then `store_pulses` on each (group, response) batch,
then `store_pulsedive_info` on each extracted (group, related, country,
ttps) batch.  This is the composition exercised when the ingestion is
re-run with an unchanged record set. -/
def merge_run (threat_groups : List PVal) (pulseBatches : List (PVal × PVal))
    (pdBatches : List (PVal × PVal × PVal × PVal)) (s : GraphState) :
    GraphState × Option PyErr :=
  match store_threat_groups s threat_groups with
  | (s1, some e) => (s1, some e)
  | (s1, Option.none) =>
  match runSteps (fun st b => store_pulses st b.1 b.2) s1 pulseBatches with
  | (s2, some e) => (s2, some e)
  | (s2, Option.none) =>
    runSteps (fun st b => store_pulsedive_info st b.1 b.2.1 b.2.2.1 b.2.2.2) s2 pdBatches

/-- A calendar timestamp with microsecond precision, as produced by Python
`datetime.strptime` / pandas `to_datetime`. -/
structure DateTime where
  year : Nat
  month : Nat
  day : Nat
  hour : Nat
  minute : Nat
  second : Nat
  micro : Nat
deriving DecidableEq, Repr

/-- Gregorian leap-year rule. -/
def isLeapYear (y : Nat) : Bool :=
  (y % 4 == 0 && y % 100 != 0) || y % 400 == 0

/-- Number of days of a month in a given year. -/
def daysInMonth (y m : Nat) : Nat :=
  if m = 2 then (if isLeapYear y then 29 else 28)
  else if m = 4 || m = 6 || m = 9 || m = 11 then 30
  else 31

/-- Day number of a proleptic-Gregorian calendar date (years ≥ 1), using the
standard shifted-month formula; only differences of day numbers matter. -/
def daysFromCivil (y m d : Nat) : Nat :=
  let y1 := if m ≤ 2 then y - 1 else y
  let m1 := if m ≤ 2 then m + 9 else m - 3
  365 * y1 + y1 / 4 + y1 / 400 + (153 * m1 + 2) / 5 + d - y1 / 100 - 1

/-- Microseconds in one day. -/
def usPerDay : Nat := 86400000000

/-- Absolute microsecond count of a timestamp.  Python `datetime` values
compare and subtract exactly as these counts do on valid dates. -/
def DateTime.toMicros (dt : DateTime) : Nat :=
  (daysFromCivil dt.year dt.month dt.day * 86400 +
    dt.hour * 3600 + dt.minute * 60 + dt.second) * 1000000 + dt.micro

/-- Numeric value of a decimal digit character. -/
def digitVal (c : Char) : Nat := c.toNat - 48

/-- Read exactly two decimal digits. -/
def take2 : List Char → Option (Nat × List Char)
  | a :: b :: rest =>
    if a.isDigit && b.isDigit then some (10 * digitVal a + digitVal b, rest) else Option.none
  | _ => Option.none

/-- Read exactly four decimal digits. -/
def take4 : List Char → Option (Nat × List Char)
  | a :: b :: c :: d :: rest =>
    if a.isDigit && b.isDigit && c.isDigit && d.isDigit then
      some (1000 * digitVal a + 100 * digitVal b + 10 * digitVal c + digitVal d, rest)
    else Option.none
  | _ => Option.none

/-- Consume one expected literal character. -/
def expectChar (c : Char) : List Char → Option (List Char)
  | x :: rest => if x = c then some rest else Option.none
  | [] => Option.none

/-- Range validity of the parsed fields, as checked by `strptime` /
`to_datetime` (a timestamp out of range is a parse failure, hence `NaT`
under `errors='coerce'`). -/
def validDateTime (y m d h mi s : Nat) : Bool :=
  1 ≤ m && m ≤ 12 && 1 ≤ d && d ≤ daysInMonth y m && h ≤ 23 && mi ≤ 59 && s ≤ 59

/-- Parse the common `%Y-%m-%dT%H:%M:%S` part of the two timestamp formats
of `process_data` (zero-padded fields, as the feed produces them), returning
the remainder of the input. -/
def parseDateTimeCore (cs : List Char) : Option (DateTime × List Char) :=
  match take4 cs with
  | Option.none => Option.none
  | some (y, cs) =>
  match expectChar '-' cs with
  | Option.none => Option.none
  | some cs =>
  match take2 cs with
  | Option.none => Option.none
  | some (m, cs) =>
  match expectChar '-' cs with
  | Option.none => Option.none
  | some cs =>
  match take2 cs with
  | Option.none => Option.none
  | some (d, cs) =>
  match expectChar 'T' cs with
  | Option.none => Option.none
  | some cs =>
  match take2 cs with
  | Option.none => Option.none
  | some (h, cs) =>
  match expectChar ':' cs with
  | Option.none => Option.none
  | some cs =>
  match take2 cs with
  | Option.none => Option.none
  | some (mi, cs) =>
  match expectChar ':' cs with
  | Option.none => Option.none
  | some cs =>
  match take2 cs with
  | Option.none => Option.none
  | some (s, cs) =>
    if validDateTime y m d h mi s then some (⟨y, m, d, h, mi, s, 0⟩, cs) else Option.none

/-- Collect the leading run of decimal digits. -/
def takeDigits : List Char → List Char × List Char
  | [] => ([], [])
  | c :: rest =>
    if c.isDigit then
      let (ds, rem) := takeDigits rest
      (c :: ds, rem)
    else ([], c :: rest)

/-- Natural number denoted by a digit list. -/
def digitsToNat (ds : List Char) : Nat :=
  ds.foldl (fun acc c => 10 * acc + digitVal c) 0

/-- Parse a timestamp in the format `%Y-%m-%dT%H:%M:%S` (line 174 of
`Analysis.py`); the whole string must match. -/
def parseTsNoFrac (s : String) : Option DateTime :=
  match parseDateTimeCore s.data with
  | some (dt, []) => some dt
  | _ => Option.none

/-- Parse a timestamp in the format `%Y-%m-%dT%H:%M:%S.%f` (line 173 of
`Analysis.py`): the core followed by a dot and one to six fractional-second
digits (`%f` is left-aligned, so `.5` means 500000 microseconds). -/
def parseTsFrac (s : String) : Option DateTime :=
  match parseDateTimeCore s.data with
  | some (dt, '.' :: rest) =>
    let (ds, rem) := takeDigits rest
    if rem.isEmpty && 1 ≤ ds.length && ds.length ≤ 6 then
      some { dt with micro := digitsToNat ds * 10 ^ (6 - ds.length) }
    else Option.none
  | _ => Option.none

/-- Model of `pd.to_datetime` applied to a column that line 173 already
converted to datetime64: pandas returns a datetime64 input unchanged (the
`format` argument plays no role), so the fillna argument of line 174 is the
column itself. -/
def to_datetime_of_datetime (v : Option DateTime) : Option DateTime := v

/-- Lines 173-176 of `process_data`: parse the `pulse_created` column with
the fractional-second format (`NaT` on failure, modelled by `Option.none`),
then `fillna` it with `pd.to_datetime` of the *already converted* column —
not of the original strings — which is the identity, so the fill never
recovers a row. -/
def parse_pulse_created (raw : List (String × String)) : List (String × Option DateTime) :=
  let col1 := raw.map (fun r => (r.1, parseTsFrac r.2))
  let col2 := col1.map (fun r => (r.1, to_datetime_of_datetime r.2))
  List.zipWith (fun a b : String × Option DateTime =>
    (a.1, if a.2.isSome then a.2 else b.2)) col1 col2

/-- Lines 173-176 of `process_data` including the `dropna`: the surviving
rows with their parsed timestamps. -/
def process_data_rows (raw : List (String × String)) : List (String × DateTime) :=
  (parse_pulse_created raw).filterMap (fun r => r.2.map (fun d => (r.1, d)))

/-- The `to_period("M")` bucket of a timestamp. -/
def yearMonth (dt : DateTime) : Nat × Nat := (dt.year, dt.month)

/-- Lexicographic Boolean order on (year-month, group) keys, modelling the
sorted key order of `pandas.groupby`. -/
def ymGroupLeB (a b : (Nat × Nat) × String) : Bool :=
  if a.1.1 ≠ b.1.1 then a.1.1 ≤ b.1.1
  else if a.1.2 ≠ b.1.2 then a.1.2 ≤ b.1.2
  else strLeB a.2 b.2

/-- Lines 179-182 of `process_data`: bucket each surviving row by
(year-month, threat group) and count the rows of each bucket
(`df.groupby(["year_month", "threat_group"]).size()`). -/
def process_data_grouped (raw : List (String × String)) :
    List ((Nat × Nat) × String × Nat) :=
  let rows := process_data_rows raw
  let pairs := rows.map (fun r => (yearMonth r.2, r.1))
  let keys := List.insertionSort (fun a b => ymGroupLeB a b = true) pairs.dedup
  keys.map (fun k => (k.1, k.2, pairs.count k))

/-- Lexicographic Boolean order on (year-month, pulse-count) keys. -/
def ymCountLeB (a b : (Nat × Nat) × Nat) : Bool :=
  if a.1.1 ≠ b.1.1 then a.1.1 ≤ b.1.1
  else if a.1.2 ≠ b.1.2 then a.1.2 ≤ b.1.2
  else a.2 ≤ b.2

/-- Lines 185-186 of `process_data`: for every observed (year-month,
pulse-count) pair, the number of grouped rows with that pair divided by the
number of grouped rows of that month —
`df_grouped.groupby(["year_month", "pulse_count"]).size() /
df_grouped.groupby("year_month").size()`. -/
def pmf_pulse_counts (grouped : List ((Nat × Nat) × String × Nat)) :
    List ((Nat × Nat) × Nat × ℚ) :=
  let pairs := grouped.map (fun r => (r.1, r.2.2))
  let keys := List.insertionSort (fun a b => ymCountLeB a b = true) pairs.dedup
  keys.map (fun k =>
    (k.1, k.2, (pairs.count k : ℚ) / ((grouped.countP (fun r => r.1 == k.1) : Nat) : ℚ)))

/-- The constant of line 201 of `Analysis.py` (its comment says "No activity
in the last 12 months", but its value makes the threshold 90 months). -/
def INACTIVE_THRESHOLD_MONTHS : Nat := 90

/-- The constant of line 202 of `Analysis.py`. -/
def EMERGING_FIRST_PULSE_LIMIT : Nat := 24

/-- The constant of line 203 of `Analysis.py`. -/
def EMERGING_RECENT_PULSE_LIMIT : Nat := 24

/-- The timestamp cutoff of line 213:
`current_date - timedelta(days=INACTIVE_THRESHOLD_MONTHS * 30)`. -/
def inactive_cutoff (now : DateTime) : Int :=
  (now.toMicros : Int) - (INACTIVE_THRESHOLD_MONTHS * 30 * usPerDay : Nat)

/-- The timestamp cutoff of line 217:
`current_date - timedelta(days=EMERGING_FIRST_PULSE_LIMIT * 30)`. -/
def emerging_first_cutoff (now : DateTime) : Int :=
  (now.toMicros : Int) - (EMERGING_FIRST_PULSE_LIMIT * 30 * usPerDay : Nat)

/-- The timestamp cutoff of line 218:
`current_date - timedelta(days=EMERGING_RECENT_PULSE_LIMIT * 30)`. -/
def emerging_recent_cutoff (now : DateTime) : Int :=
  (now.toMicros : Int) - (EMERGING_RECENT_PULSE_LIMIT * 30 * usPerDay : Nat)

/-- The `pulse_created` timestamps (as microsecond counts) of one group of
the `df.groupby("threat_group")` iteration. -/
def group_timestamps (df : List (String × DateTime)) (g : String) : List Int :=
  (df.filter (fun r => r.1 == g)).map (fun r => (r.2.toMicros : Int))

/-- The `if` predicate of line 213: the latest pulse of the group is older
than the inactive cutoff. -/
def is_inactive (now : DateTime) (df : List (String × DateTime)) (g : String) : Bool :=
  match group_timestamps df g with
  | [] => false
  | t0 :: tr => decide (tr.foldl max t0 < inactive_cutoff now)

/-- The `elif` branch of lines 216-218 as actually reached: the group is not
inactive, and both its first and latest pulse lie beyond the emerging
cutoffs. -/
def is_emerging_only (now : DateTime) (df : List (String × DateTime)) (g : String) : Bool :=
  match group_timestamps df g with
  | [] => false
  | t0 :: tr =>
    !(decide (tr.foldl max t0 < inactive_cutoff now)) &&
      (decide (emerging_first_cutoff now < tr.foldl min t0) &&
        decide (emerging_recent_cutoff now < tr.foldl max t0))

/-- One iteration of the per-group loop of `classify_threats` (lines
209-220): compute `first_seen`/`last_seen` and append the group to the
inactive list, to the emerging list, or to neither. -/
def classify_step (now : DateTime) (df : List (String × DateTime))
    (acc : List String × List String) (g : String) : List String × List String :=
  match group_timestamps df g with
  | [] => acc
  | t0 :: tr =>
    let first_seen := tr.foldl min t0
    let last_seen := tr.foldl max t0
    if last_seen < inactive_cutoff now then (acc.1 ++ [g], acc.2)
    else if emerging_first_cutoff now < first_seen && emerging_recent_cutoff now < last_seen then
      (acc.1, acc.2 ++ [g])
    else acc

/-- Model of `classify_threats` (lines 194-222).  `now` stands for
`datetime.now()`.  Groups are visited in the sorted order `pandas.groupby`
uses; a group whose rows are in `df` always yields a non-empty timestamp
list, so the empty case of `classify_step` is never taken. -/
def classify_threats (now : DateTime) (df : List (String × DateTime)) :
    List String × List String :=
  let groups := List.insertionSort (fun a b => strLeB a b = true) (df.map Prod.fst).dedup
  groups.foldl (classify_step now df) ([], [])

/-- A data-frame row for `detect_outliers`: a pandas index plus named
column values.  The columns `detect_outliers` is applied to
(`combined_related_entities`, `alias_count`, `ttp_count`) hold integer
counts, so values are modelled as integers. -/
abbrev DFRow : Type := Nat × List (String × Int)

/-- Value of a row in a column. -/
def colVal (r : DFRow) (c : String) : Int :=
  ((r.2.find? (fun f => f.1 == c)).map Prod.snd).getD 0

/-- Column values of a data frame. -/
def colOf (df : List DFRow) (c : String) : List Int :=
  df.map (fun r => colVal r c)

/-- Pandas `Series.quantile(q)` with the default linear interpolation reads
position `h = q·(n−1)` in the sorted values: `s[⌊h⌋] + (h−⌊h⌋)·(s[⌊h⌋+1] −
s[⌊h⌋])`.  For `q = numq/4` every quantity is a multiple of 1/8, so the
result is returned exactly, scaled by 8. -/
def quantileX8 (xs : List Int) (numq : Nat) : Int :=
  let s := List.insertionSort (fun a b : Int => a ≤ b) xs
  let n := s.length
  if n = 0 then 0
  else
    let pos := numq * (n - 1)
    let i := pos / 4
    let r : Int := (pos % 4 : Nat)
    8 * s.getD i 0 + 2 * r * (s.getD (i + 1) 0 - s.getD i 0)

/-- Lower IQR bound `Q1 − 1.5·IQR` of a column, scaled by 16. -/
def lowerBoundX16 (df : List DFRow) (c : String) : Int :=
  let q1x8 := quantileX8 (colOf df c) 1
  let q3x8 := quantileX8 (colOf df c) 3
  2 * q1x8 - 3 * (q3x8 - q1x8)

/-- Upper IQR bound `Q3 + 1.5·IQR` of a column, scaled by 16. -/
def upperBoundX16 (df : List DFRow) (c : String) : Int :=
  let q1x8 := quantileX8 (colOf df c) 1
  let q3x8 := quantileX8 (colOf df c) 3
  2 * q3x8 + 3 * (q3x8 - q1x8)

/-- Whether a row is out of bounds in a column
(`df[col] < lower_bound` / `df[col] > upper_bound`, line 277). -/
def isOutlierIn (df : List DFRow) (c : String) (r : DFRow) : Bool :=
  16 * colVal r c < lowerBoundX16 df c || upperBoundX16 df c < 16 * colVal r c

/-- One iteration of the per-column loop of `detect_outliers` (lines
266-280): collect the rows out of the IQR bounds and union their indices
into the accumulated index set (a Python `set`, modelled as a
duplicate-free list). -/
def outlier_step (df : List DFRow) (acc : List (String × List DFRow) × List Nat)
    (col : String) : List (String × List DFRow) × List Nat :=
  let outliers := df.filter (isOutlierIn df col)
  (if !outliers.isEmpty then acc.1 ++ [(col, outliers)] else acc.1,
   outliers.foldl (fun idxs r => if idxs.contains r.1 then idxs else idxs ++ [r.1]) acc.2)

/-- Model of `detect_outliers` (lines 252-284): per column (`outlier_step`)
collect the out-of-bounds rows into `outliers_dict` (only when non-empty)
and union their indices into `outlier_indices`; finally drop every row
whose index was collected.  All checked columns are numeric in the model,
so the non-numeric skip branch is never taken. -/
def detect_outliers (df : List DFRow) (columns : List String) :
    List DFRow × List (String × List DFRow) :=
  let step := columns.foldl (outlier_step df)
    (([] : List (String × List DFRow)), ([] : List Nat))
  let df_clean := df.filter (fun r => !step.2.contains r.1)
  (df_clean, step.1)

/-- Skip JSON whitespace. -/
def skipWs : List Char → List Char
  | [] => []
  | c :: rest =>
    if c = ' ' || c = '\t' || c = '\n' || c = '\r' then skipWs rest else c :: rest

/-- Value of a hexadecimal digit. -/
def hexVal (c : Char) : Option Nat :=
  if c.isDigit then some (digitVal c)
  else if 'a' ≤ c && c ≤ 'f' then some (c.toNat - 87)
  else if 'A' ≤ c && c ≤ 'F' then some (c.toNat - 55)
  else Option.none

/-- Single-character JSON escapes. -/
def escChar : Char → Option Char
  | '"' => some '"'
  | '\\' => some '\\'
  | '/' => some '/'
  | 'b' => some (Char.ofNat 8)
  | 'f' => some (Char.ofNat 12)
  | 'n' => some '\n'
  | 'r' => some '\r'
  | 't' => some '\t'
  | _ => Option.none

/-- Parse the body of a JSON string after the opening quote, returning the
content and the remainder after the closing quote.  Unescaped control
characters are rejected, as `json.loads` rejects them; a lone `\\u` escape
outside the basic plane is out of scope for the feed data. -/
def jsonStringChars : List Char → Option (List Char × List Char)
  | [] => Option.none
  | '"' :: rest => some ([], rest)
  | '\\' :: 'u' :: h1 :: h2 :: h3 :: h4 :: rest =>
    (match hexVal h1, hexVal h2, hexVal h3, hexVal h4 with
     | some a, some b, some c, some d =>
       (jsonStringChars rest).map (fun p =>
         (Char.ofNat (4096 * a + 256 * b + 16 * c + d) :: p.1, p.2))
     | _, _, _, _ => Option.none)
  | '\\' :: e :: rest =>
    (match escChar e with
     | some c => (jsonStringChars rest).map (fun p => (c :: p.1, p.2))
     | Option.none => Option.none)
  | c :: rest =>
    if 32 ≤ c.toNat then (jsonStringChars rest).map (fun p => (c :: p.1, p.2))
    else Option.none

/-- Append or overwrite a key in a parsed JSON object, matching the
last-wins duplicate-key behaviour of `json.loads`. -/
def dictInsert (fields : List (String × PVal)) (k : String) (v : PVal) :
    List (String × PVal) :=
  if fields.any (fun f => f.1 == k) then
    fields.map (fun f => if f.1 == k then (k, v) else f)
  else fields ++ [(k, v)]

/-- Trailing part of a JSON number after the integer and fraction digits:
an optional exponent.  Returns the exponent token characters. -/
def jsonExp (e : Char) (r : List Char) : Option (List Char × List Char) :=
  let sr := match r with
    | '+' :: rr => (['+'], rr)
    | '-' :: rr => (['-'], rr)
    | _ => (([] : List Char), r)
  let ds := takeDigits sr.2
  if ds.1.isEmpty then Option.none else some (e :: sr.1 ++ ds.1, ds.2)

/-- Assemble a parsed JSON number: pure integers become `PVal.int`, numbers
with a fraction or exponent keep their lexical token as `PVal.float`. -/
def jsonNumberTail (neg : Bool) (ids : List Char) (frac : Option (List Char))
    (cs : List Char) : Option (PVal × List Char) :=
  let mk := fun (expPart : List Char) (rest : List Char) =>
    match frac, expPart with
    | Option.none, [] =>
      some (PVal.int ((if neg then -1 else 1) * (digitsToNat ids : Int)), rest)
    | _, _ =>
      some (PVal.float (String.mk ((if neg then ['-'] else []) ++ ids ++
        (match frac with
         | some fs => '.' :: fs
         | Option.none => []) ++ expPart)), rest)
  match cs with
  | 'e' :: r =>
    (match jsonExp 'e' r with
     | some (tok, rest) => mk tok rest
     | Option.none => Option.none)
  | 'E' :: r =>
    (match jsonExp 'E' r with
     | some (tok, rest) => mk tok rest
     | Option.none => Option.none)
  | _ => mk [] cs

/-- Parse a JSON number (sign, integer part without leading zeros, optional
fraction, optional exponent). -/
def jsonNumber (cs : List Char) : Option (PVal × List Char) :=
  let sr := match cs with
    | '-' :: r => (true, r)
    | _ => (false, cs)
  let ids := takeDigits sr.2
  if ids.1.isEmpty then Option.none
  else if 2 ≤ ids.1.length && ids.1.headD '0' = '0' then Option.none
  else
    match ids.2 with
    | '.' :: r =>
      let fs := takeDigits r
      if fs.1.isEmpty then Option.none
      else jsonNumberTail sr.1 ids.1 (some fs.1) fs.2
    | rest => jsonNumberTail sr.1 ids.1 Option.none rest

mutual

/-- Parse one JSON value, modelling `json.loads` on the feed data.  The
first argument is fuel bounding the recursion depth; `json_loads` supplies
enough fuel for any input of the given length. -/
def jsonValue : Nat → List Char → Option (PVal × List Char)
  | 0, _ => Option.none
  | fuel + 1, cs =>
    match skipWs cs with
    | '"' :: rest => (jsonStringChars rest).map (fun p => (PVal.str (String.mk p.1), p.2))
    | '[' :: rest =>
      (match skipWs rest with
       | ']' :: rest2 => some (PVal.list [], rest2)
       | cs2 => jsonArrayItems fuel cs2 [])
    | '\x7b' :: rest =>
      (match skipWs rest with
       | '\x7d' :: rest2 => some (PVal.dict [], rest2)
       | cs2 => jsonObjectItems fuel cs2 [])
    | 't' :: 'r' :: 'u' :: 'e' :: rest => some (PVal.bool true, rest)
    | 'f' :: 'a' :: 'l' :: 's' :: 'e' :: rest => some (PVal.bool false, rest)
    | 'n' :: 'u' :: 'l' :: 'l' :: rest => some (PVal.none, rest)
    | cs1 => jsonNumber cs1

/-- Parse the items of a non-empty JSON array after the opening bracket. -/
def jsonArrayItems : Nat → List Char → List PVal → Option (PVal × List Char)
  | 0, _, _ => Option.none
  | fuel + 1, cs, acc =>
    match jsonValue fuel cs with
    | Option.none => Option.none
    | some (v, rest) =>
      match skipWs rest with
      | ',' :: rest2 => jsonArrayItems fuel rest2 (acc ++ [v])
      | ']' :: rest2 => some (PVal.list (acc ++ [v]), rest2)
      | _ => Option.none

/-- Parse the members of a non-empty JSON object after the opening brace. -/
def jsonObjectItems : Nat → List Char → List (String × PVal) →
    Option (PVal × List Char)
  | 0, _, _ => Option.none
  | fuel + 1, cs, acc =>
    match skipWs cs with
    | '"' :: rest =>
      (match jsonStringChars rest with
       | Option.none => Option.none
       | some (kcs, rest2) =>
         match skipWs rest2 with
         | ':' :: rest3 =>
           (match jsonValue fuel rest3 with
            | Option.none => Option.none
            | some (v, rest4) =>
              match skipWs rest4 with
              | ',' :: rest5 => jsonObjectItems fuel rest5 (dictInsert acc (String.mk kcs) v)
              | '\x7d' :: rest5 => some (PVal.dict (dictInsert acc (String.mk kcs) v), rest5)
              | _ => Option.none)
         | _ => Option.none)
    | _ => Option.none

end

/-- Model of `json.loads`: parse one value and require only whitespace to
follow. -/
def json_loads (s : String) : Option PVal :=
  match jsonValue (2 * s.length + 2) s.data with
  | some (v, rest) => if (skipWs rest).isEmpty then some v else Option.none
  | Option.none => Option.none

/-- Model of `fix_json_file` (lines 3-31 of `FormatJSON.py`) on the content
of the input file: replace every boundary of a closing brace, newline,
opening brace by brace, comma, newline, brace; wrap the whole content in
brackets; validate with `json.loads`.  The result is the validated value
whose pretty-printed form is written to the output file, or `Option.none`
when validation fails and the function returns without writing. -/
def fix_json_file (raw_data : String) : Option PVal :=
  let fixed_data := "[\n" ++ strReplace raw_data "\x7d\n\x7b" "\x7d,\n\x7b" ++ "\n]"
  json_loads fixed_data


/-- Boolean equality on node keys `(name, group)`. -/
def pairBeq (a b : PVal × PVal) : Bool :=
  PVal.beq a.1 b.1 && PVal.beq a.2 b.2

/-- Boolean equality on RelatedEntity nodes (all four properties form the
key). -/
def entBeq (a b : REntityNode) : Bool :=
  PVal.beq a.tid b.tid && PVal.beq a.name b.name && PVal.beq a.category b.category &&
    PVal.beq a.risk b.risk

/-- Boolean equality on Tactic node keys `(name, group)`. -/
def tacBeq (a b : TacticNode) : Bool :=
  a.name == b.name && PVal.beq a.group b.group

/-- Structural Boolean equality on `PVal` agrees with propositional
equality. -/
theorem PVal.beq_iff : ∀ (a b : PVal), PVal.beq a b = true ↔ a = b :=
  @PVal.rec (fun a => ∀ b, PVal.beq a b = true ↔ a = b)
    (fun l => ∀ m, PVal.beqList l m = true ↔ l = m)
    (fun l => ∀ m, PVal.beqFields l m = true ↔ l = m)
    (fun p => ∀ q : String × PVal, (p.1 == q.1 && PVal.beq p.2 q.2) = true ↔ p = q)
    (fun a => by intro b; cases b <;> simp [PVal.beq])
    (fun a => by intro b; cases b <;> simp [PVal.beq])
    (fun a => by intro b; cases b <;> simp [PVal.beq])
    (fun a => by intro b; cases b <;> simp [PVal.beq])
    (by intro b; cases b <;> simp [PVal.beq])
    (fun a ih => by intro b; cases b <;> simp [PVal.beq, ih])
    (fun a ih => by intro b; cases b <;> simp [PVal.beq, ih])
    (by intro m; cases m <;> simp [PVal.beqList])
    (fun h t ihh iht => by intro m; cases m <;> simp [PVal.beqList, ihh, iht])
    (by intro m; cases m <;> simp [PVal.beqFields])
    (fun h t ihh iht => by
      intro m
      obtain ⟨k, v⟩ := h
      cases m with
      | nil => simp [PVal.beqFields]
      | cons h2 t2 =>
        obtain ⟨k2, v2⟩ := h2
        have hp := ihh (k2, v2)
        simp only [PVal.beqFields, Bool.and_eq_true, List.cons.injEq] at hp ⊢
        constructor
        · rintro ⟨⟨hk, hv⟩, ht⟩
          exact ⟨hp.mp ⟨hk, hv⟩, (iht t2).mp ht⟩
        · rintro ⟨hkv, ht⟩
          exact ⟨hp.mpr hkv, (iht t2).mpr ht⟩)
    (fun f sn ih => by
      intro q
      obtain ⟨qf, qs⟩ := q
      simp [ih, Prod.mk.injEq])

/-- Reflexivity of `PVal.beq`. -/
theorem PVal.beq_refl (a : PVal) : PVal.beq a a = true :=
  (PVal.beq_iff a a).mpr rfl

/-- Cypher `COALESCE` of a value with itself. -/
theorem coalesceP_self (v : PVal) : coalesceP v v = v := by
  cases v <;> rfl

/-- A key-preserving upsert changes the key list of a node list exactly by
`insertKeyBy`: nothing when the key is already present, one appended key
otherwise.  This is the upsert shape of every node `MERGE` of the
ingestion code. -/
theorem upsertBy_map_key {α κ : Type} (keyOf : α → κ) (keq : κ → κ → Bool)
    (hit : α → Bool) (upd : α → α) (mk : α) (k : κ) (xs : List α)
    (hhit : ∀ x, hit x = keq (keyOf x) k)
    (hupd : ∀ x, hit x = true → keyOf (upd x) = keyOf x)
    (hmk : keyOf mk = k) :
    (upsertBy hit upd mk xs).map keyOf = insertKeyBy keq (xs.map keyOf) k := by
  unfold upsertBy insertKeyBy
  have hany : ((xs.map keyOf).any fun x => keq x k) = xs.any hit := by
    induction xs with
    | nil => rfl
    | cons x rest ih => simp [List.any_cons, ih, hhit]
  by_cases h : xs.any hit = true
  · rw [if_pos h, hany, if_pos h, List.map_map]
    apply List.map_congr_left
    intro x _
    by_cases hx : hit x = true
    · simp only [Function.comp_apply, hx, if_pos]
      exact hupd x hx
    · simp only [Function.comp_apply, hx]
      simp
  · rw [if_neg h, hany, if_neg h, List.map_append, List.map_singleton, hmk]

/-- The alias loop of `merge_threat_group` does not change the ThreatGroup
node list. -/
theorem alias_fold_threatGroups (name : PVal) (aliasList : List PVal) (s : GraphState) :
    (aliasList.foldl (merge_alias name) s).threatGroups = s.threatGroups := by
  induction aliasList generalizing s with
  | nil => rfl
  | cons a rest ih => exact ih _


/-- Key-list behaviour of `merge_threat_group` on a well-formed record:
the ThreatGroup name list gains the (defaulted) record name unless it is
already present, and no node is duplicated. -/
theorem merge_threat_group_keys (s : GraphState) (fields : List (String × PVal))
    (aliasList : List PVal)
    (hal : (PVal.lookupField "aliases" fields).getD (PVal.list []) = PVal.list aliasList) :
    ((merge_threat_group s (PVal.dict fields)).1.threatGroups.map (fun n => n.name)) =
      insertKeyBy PVal.beq (s.threatGroups.map (fun n => n.name))
        ((PVal.lookupField "name" fields).getD (PVal.str "Unknown")) := by
  unfold merge_threat_group
  simp only [PVal.get, hal]
  rw [alias_fold_threatGroups]
  apply upsertBy_map_key
  · intro x
    rfl
  · intro x _
    rfl
  · rfl

/-- Key-list behaviour of `merge_pulse` on a dictionary record: the Pulse
`(name, group)` key list gains the (defaulted) record name paired with the
owning group unless that key is already present; no node is duplicated, and
the `ON MATCH` clause never changes a key (the coalesce leaves the matched
group value in place). -/
theorem merge_pulse_keys (s : GraphState) (g : PVal) (fields : List (String × PVal)) :
    ((merge_pulse g s (PVal.dict fields)).1.pulses.map (fun p => (p.name, p.group))) =
      insertKeyBy pairBeq (s.pulses.map (fun p => (p.name, p.group)))
        ((PVal.lookupField "name" fields).getD (PVal.str "N/A"), g) := by
  unfold merge_pulse
  simp only [PVal.get]
  have hedge : ∀ (pn : PVal) (s1 : GraphState),
      (merge_pulse_edge g pn s1).pulses = s1.pulses := by
    intro pn s1
    unfold merge_pulse_edge
    split <;> rfl
  rw [hedge]
  unfold merge_pulse_node
  apply upsertBy_map_key
  · intro x
    rfl
  · intro x hx
    unfold pulse_hit at hx
    simp only [Bool.and_eq_true] at hx
    have hg : x.group = g := (PVal.beq_iff _ _).mp hx.2
    simp [pulse_on_match, hg, coalesceP_self]
  · rfl

/-- An upsert whose `ON MATCH` clause is trivial is exactly an
insert-if-absent. -/
theorem upsertBy_id_key {α : Type} (keq : α → α → Bool) (hit : α → Bool) (mk : α)
    (xs : List α) (hhit : ∀ x, hit x = keq x mk) :
    upsertBy hit (fun x => x) mk xs = insertKeyBy keq xs mk := by
  unfold upsertBy insertKeyBy
  have hany : (xs.any fun x => keq x mk) = xs.any hit := by
    induction xs with
    | nil => rfl
    | cons x rest ih => simp [List.any_cons, ih, hhit]
  by_cases h : xs.any hit = true
  · rw [if_pos h, hany, if_pos h]
    simp
  · rw [if_neg h, hany, if_neg h]

/-- Key-list behaviour of `merge_entity` on an entity record carrying all
four fields: the RelatedEntity list (whose nodes are their own keys) gains
the record values unless already present; no node is duplicated. -/
theorem merge_entity_keys (s : GraphState) (g : PVal) (fields : List (String × PVal))
    (tid ename cat risk : PVal)
    (h1 : PVal.lookupField "tid" fields = some tid)
    (h2 : PVal.lookupField "name" fields = some ename)
    (h3 : PVal.lookupField "category" fields = some cat)
    (h4 : PVal.lookupField "risk" fields = some risk) :
    (merge_entity g s (PVal.dict fields)).1.relEntities =
      insertKeyBy entBeq s.relEntities ⟨tid, ename, cat, risk⟩ := by
  unfold merge_entity
  simp only [PVal.item, h1, h2, h3, h4]
  split
  all_goals {
    apply upsertBy_id_key
    intro x
    rfl }

/-- The technique loop of `merge_ttp` does not change the Tactic node
list. -/
theorem tech_fold_tactics (g : PVal) (tname : String) (techs : List PVal) (s : GraphState) :
    (techs.foldl (merge_technique g tname) s).tactics = s.tactics := by
  induction techs generalizing s with
  | nil => rfl
  | cons t rest ih =>
    rw [List.foldl_cons, ih]
    unfold merge_technique
    dsimp only
    split <;> rfl

/-- Boolean equality on Tactic keys `(name, group)`. -/
def tacKeyBeq (a b : String × PVal) : Bool :=
  a.1 == b.1 && PVal.beq a.2 b.2

/-- Key-list behaviour of the Tactic upsert of `merge_ttp`: the Tactic
`(name, group)` key list gains the tactic name paired with the owning group
unless already present; no node is duplicated, and the `ON MATCH` coalesce
never changes a key. -/
theorem merge_ttp_tactic_keys (s : GraphState) (g : PVal) (pair : String × PVal) :
    ((merge_ttp g s pair).1.tactics.map (fun t => (t.name, t.group))) =
      insertKeyBy tacKeyBeq (s.tactics.map (fun t => (t.name, t.group))) (pair.1, g) := by
  have htech : ∀ s1 : GraphState,
      (merge_ttp_techniques g pair.1 pair.2 s1).tactics = s1.tactics := by
    intro s1
    unfold merge_ttp_techniques
    split
    · split
      · rw [tech_fold_tactics]
      · rfl
    · rfl
  have hedge : ∀ s1 : GraphState, (merge_tactic_edge g pair.1 s1).tactics = s1.tactics := by
    intro s1
    unfold merge_tactic_edge
    split <;> rfl
  show (merge_ttp_techniques g pair.1 pair.2
      (merge_tactic_edge g pair.1 (merge_tactic_node g pair.1 s))).tactics.map
      (fun t => (t.name, t.group)) = _
  rw [htech, hedge]
  unfold merge_tactic_node
  apply upsertBy_map_key
  · intro x
    rfl
  · intro x hx
    simp only [Bool.and_eq_true] at hx
    have hg : x.group = g := (PVal.beq_iff _ _).mp hx.2
    simp [hg, coalesceP_self]
  · rfl

/-- C2: the claim fails on the code.  Line 173 overwrites the column with
the fractional-second parse, and line 174 re-parses the already-converted
column (not the original strings), so the `fillna` is the identity and the
surviving rows are exactly those that parse under the *fractional* format.
A timestamp in the second documented format, such as
`2023-01-01T00:00:00`, parses under `%Y-%m-%dT%H:%M:%S` but its row is
dropped by `process_data`, contradicting the claim that rows in either
format are kept. -/
theorem c2_fallback_parse_is_dead :
    (∀ raw : List (String × String),
      process_data_rows raw =
        raw.filterMap (fun r => (parseTsFrac r.2).map (fun d => (r.1, d)))) ∧
    parseTsNoFrac "2023-01-01T00:00:00" = some ⟨2023, 1, 1, 0, 0, 0, 0⟩ ∧
    parseTsFrac "2023-01-01T00:00:00" = Option.none ∧
    process_data_rows [("G", "2023-01-01T00:00:00")] = [] ∧
    process_data_rows [("G", "2023-01-01T00:00:00.5")] =
      [("G", ⟨2023, 1, 1, 0, 0, 0, 500000⟩)] := by
  refine ⟨?_, by decide, by decide, by decide, by decide⟩
  intro raw
  unfold process_data_rows parse_pulse_created to_datetime_of_datetime
  have hcol : ∀ l : List (String × Option DateTime), l.map (fun r => (r.1, r.2)) = l := by
    intro l
    simp
  simp only [hcol, List.zipWith_same, List.map_map, List.filterMap_map]
  apply List.filterMap_congr
  intro r _
  simp [ite_self]

/-- C4: the claim is right about the intended behaviour but the code
contradicts its own comment.  Line 201 sets `INACTIVE_THRESHOLD_MONTHS = 90`
while its comment says "No activity in the last 12 months -> inactive", so
the cutoff is 2700 days.  For pulses at 2023-01-01 and 2023-06-01 evaluated
at 2025-01-01, `last_seen` is only 580 days old, so `classify_threats`
classifies the group as neither inactive nor emerging — not as inactive as
the claim states. -/
theorem c4_group_not_classified_inactive :
    classify_threats ⟨2025, 1, 1, 0, 0, 0, 0⟩
      [("G", ⟨2023, 1, 1, 0, 0, 0, 0⟩), ("G", ⟨2023, 6, 1, 0, 0, 0, 0⟩)] = ([], []) ∧
    INACTIVE_THRESHOLD_MONTHS * 30 = 2700 ∧
    (DateTime.toMicros ⟨2025, 1, 1, 0, 0, 0, 0⟩ -
      DateTime.toMicros ⟨2023, 6, 1, 0, 0, 0, 0⟩) / usPerDay = 580 := by
  refine ⟨by decide, by decide, by decide⟩

/-- C10: `fix_json_file` replaces every brace-newline-brace boundary with a
comma-separated one, wraps the content in brackets and validates it with
`json.loads`; the example input yields the two-object array, and whenever
validation of the repaired text fails — for example on an input with
unbalanced braces — no output value is produced (no file is written). -/
theorem c10_fix_json_file :
    fix_json_file "\x7b\"a\":1\x7d\n\x7b\"b\":2\x7d" =
      some (PVal.list [PVal.dict [("a", PVal.int 1)], PVal.dict [("b", PVal.int 2)]]) ∧
    (∀ raw : String,
      json_loads ("[\n" ++ strReplace raw "\x7d\n\x7b" "\x7d,\n\x7b" ++ "\n]") = Option.none →
      fix_json_file raw = Option.none) ∧
    fix_json_file "\x7b\"a\":1" = Option.none := by
  refine ⟨rfl, ?_, rfl⟩
  intro raw h
  exact h

/-- C10 witness: the universally quantified part of `c10_fix_json_file`
applied to the concrete unbalanced-brace input. -/
theorem c10_fix_json_file_witness : fix_json_file "\x7b\"a\":-7" = Option.none :=
  c10_fix_json_file.2.1 "\x7b\"a\":-7" rfl

/-- C6 counterexample: the claim that every merge operation handles
partially-missing fields with defaults rather than raising is false at
these inputs.  A Pulsedive record missing its `threat` field makes
`fetch_pulsedive_info` raise `AttributeError` at `name.lower()` (line 132),
and a related-entity entry missing `tid` makes `store_pulsedive_info` raise
`KeyError` at `entity["tid"]` (line 178). -/
theorem c6_counterexample :
    (pulsedive_record (PVal.str "G") GraphState.empty
      (PVal.dict [("related", PVal.list [])])).2 = some PyErr.attributeError ∧
    (store_pulsedive_info GraphState.empty (PVal.str "G") (PVal.list [PVal.dict []])
      (PVal.list []) (PVal.dict [])).2 = some (PyErr.keyError "tid") := by
  exact ⟨by decide, by decide⟩

/-- C6 amended: `store_threat_groups` and `store_pulses` do substitute the
documented defaults for missing fields and complete without raising, but
`fetch_pulsedive_info` raises `AttributeError` on a record whose `threat`
field is missing, and `store_pulsedive_info` raises `KeyError` on a
related-entity entry missing `tid` (the `name`/`category`/`risk` lookups
behave the same way). -/
theorem c6_amended :
    (∀ (s : GraphState) (fields : List (String × PVal)) (aliasList : List PVal),
      (PVal.lookupField "aliases" fields).getD (PVal.list []) = PVal.list aliasList →
      (merge_threat_group s (PVal.dict fields)).2 = Option.none) ∧
    (store_threat_groups GraphState.empty [PVal.dict []]).1.threatGroups =
      [⟨PVal.str "Unknown", PVal.str "No description available."⟩] ∧
    (∀ (s : GraphState) (g : PVal) (fields : List (String × PVal)),
      (merge_pulse g s (PVal.dict fields)).2 = Option.none) ∧
    (store_pulses GraphState.empty (PVal.str "G")
        (PVal.dict [("results", PVal.list [PVal.dict []])])).1.pulses =
      [⟨PVal.str "N/A", PVal.str "G", PVal.str "G", PVal.str "N/A",
        PVal.str "No description available.", PVal.str "N/A", PVal.str "N/A",
        PVal.str "N/A", PVal.str "N/A"⟩] ∧
    (∀ (s : GraphState) (g : PVal) (fields : List (String × PVal)),
      PVal.lookupField "threat" fields = Option.none →
      PVal.lookupField "othernames" fields = Option.none →
      pulsedive_record g s (PVal.dict fields) = (s, some PyErr.attributeError)) ∧
    (∀ (s : GraphState) (g : PVal) (fields : List (String × PVal)),
      PVal.lookupField "tid" fields = Option.none →
      merge_entity g s (PVal.dict fields) = (s, some (PyErr.keyError "tid"))) := by
  refine ⟨?_, rfl, ?_, rfl, ?_, ?_⟩
  · intro s fields aliasList hal
    unfold merge_threat_group
    simp only [PVal.get, hal]
  · intro s g fields
    unfold merge_pulse
    simp only [PVal.get]
  · intro s g fields hthreat hother
    unfold pulsedive_record
    simp [PVal.get, hthreat, hother, PVal.iter, lowerAll, PVal.lowerP]
  · intro s g fields htid
    unfold merge_entity
    simp [PVal.item, htid]

/-- C6 witness: the amended statements applied at concrete inputs. -/
theorem c6_amended_witness :
    pulsedive_record (PVal.str "G") GraphState.empty (PVal.dict [("x", PVal.int 0)]) =
      (GraphState.empty, some PyErr.attributeError) ∧
    merge_entity (PVal.str "G") GraphState.empty (PVal.dict [("name", PVal.str "T")]) =
      (GraphState.empty, some (PyErr.keyError "tid")) :=
  ⟨c6_amended.2.2.2.2.1 GraphState.empty (PVal.str "G") [("x", PVal.int 0)] rfl rfl,
   c6_amended.2.2.2.2.2 GraphState.empty (PVal.str "G") [("name", PVal.str "T")] rfl⟩

/-- C5: re-running the merge operations with an unchanged record set
produces no new nodes and no new edges.  First conjunct: a full
`merge_run` (store_threat_groups, then the store_pulses batches, then the
store_pulsedive_info batches) applied to its own result reproduces that
result exactly, because `store_threat_groups` begins by wiping the graph,
making the run a function of the records alone.  The remaining conjuncts
state the upsert semantics of each node `MERGE`: the key list of the
touched collection changes exactly by inserting the record key when absent
— re-ingesting an existing key updates non-key attributes in place and
never duplicates a node. -/
theorem c5_merge_idempotent :
    (∀ (tgs : List PVal) (pb : List (PVal × PVal))
       (pdb : List (PVal × PVal × PVal × PVal)) (s : GraphState),
       merge_run tgs pb pdb (merge_run tgs pb pdb s).1 = merge_run tgs pb pdb s) ∧
    (∀ (s : GraphState) (fields : List (String × PVal)) (aliasList : List PVal),
      (PVal.lookupField "aliases" fields).getD (PVal.list []) = PVal.list aliasList →
      ((merge_threat_group s (PVal.dict fields)).1.threatGroups.map (fun n => n.name)) =
        insertKeyBy PVal.beq (s.threatGroups.map (fun n => n.name))
          ((PVal.lookupField "name" fields).getD (PVal.str "Unknown"))) ∧
    (∀ (s : GraphState) (g : PVal) (fields : List (String × PVal)),
      ((merge_pulse g s (PVal.dict fields)).1.pulses.map (fun p => (p.name, p.group))) =
        insertKeyBy pairBeq (s.pulses.map (fun p => (p.name, p.group)))
          ((PVal.lookupField "name" fields).getD (PVal.str "N/A"), g)) ∧
    (∀ (s : GraphState) (g : PVal) (fields : List (String × PVal)) (tid ename cat risk : PVal),
      PVal.lookupField "tid" fields = some tid →
      PVal.lookupField "name" fields = some ename →
      PVal.lookupField "category" fields = some cat →
      PVal.lookupField "risk" fields = some risk →
      (merge_entity g s (PVal.dict fields)).1.relEntities =
        insertKeyBy entBeq s.relEntities ⟨tid, ename, cat, risk⟩) ∧
    (∀ (s : GraphState) (g : PVal) (pair : String × PVal),
      ((merge_ttp g s pair).1.tactics.map (fun t => (t.name, t.group))) =
        insertKeyBy tacKeyBeq (s.tactics.map (fun t => (t.name, t.group))) (pair.1, g)) :=
  ⟨fun _ _ _ _ => rfl,
   merge_threat_group_keys,
   merge_pulse_keys,
   fun s g fields tid ename cat risk h1 h2 h3 h4 =>
     merge_entity_keys s g fields tid ename cat risk h1 h2 h3 h4,
   merge_ttp_tactic_keys⟩

/-- C5 witness: the key-list equations applied at concrete records (the
hypotheses — a list-valued alias field and present entity fields — hold by
computation). -/
theorem c5_merge_idempotent_witness :
    ((merge_threat_group GraphState.empty
        (PVal.dict [("name", PVal.str "G")])).1.threatGroups.map (fun n => n.name)) =
      insertKeyBy PVal.beq [] (PVal.str "G") ∧
    (merge_entity (PVal.str "G") GraphState.empty
        (PVal.dict [("tid", PVal.int 1), ("name", PVal.str "T"),
          ("category", PVal.str "tool"), ("risk", PVal.str "low")])).1.relEntities =
      insertKeyBy entBeq []
        ⟨PVal.int 1, PVal.str "T", PVal.str "tool", PVal.str "low"⟩ :=
  ⟨c5_merge_idempotent.2.1 GraphState.empty [("name", PVal.str "G")] [] rfl,
   c5_merge_idempotent.2.2.2.1 GraphState.empty (PVal.str "G")
     [("tid", PVal.int 1), ("name", PVal.str "T"), ("category", PVal.str "tool"),
      ("risk", PVal.str "low")]
     (PVal.int 1) (PVal.str "T") (PVal.str "tool") (PVal.str "low") rfl rfl rfl rfl⟩

/-- A graph observation preserved by every step of a record loop is
preserved by the whole loop. -/
theorem runSteps_preserves {β γ : Type} (P : GraphState → γ)
    (step : GraphState → β → GraphState × Option PyErr)
    (h : ∀ s r, P (step s r).1 = P s) :
    ∀ (l : List β) (s : GraphState), P (runSteps step s l).1 = P s := by
  intro l
  induction l with
  | nil => intro s; rfl
  | cons r rest ih =>
    intro s
    unfold runSteps
    rcases hs : step s r with ⟨s1, e⟩
    have hps : P s1 = P s := by
      have := h s r
      rw [hs] at this
      exact this
    cases e with
    | none => rw [ih s1, hps]
    | some e => exact hps

/-- The alias loop does not change the Pulse node list. -/
theorem merge_alias_fold_pulses (name : PVal) (al : List PVal) (s : GraphState) :
    (al.foldl (merge_alias name) s).pulses = s.pulses := by
  induction al generalizing s with
  | nil => rfl
  | cons a rest ih => exact ih _

/-- `merge_threat_group` does not change the Pulse node list. -/
theorem merge_threat_group_pulses (s : GraphState) (r : PVal) :
    (merge_threat_group s r).1.pulses = s.pulses := by
  unfold merge_threat_group
  cases r <;> simp only [PVal.get]
  case dict fields =>
    split
    · exact merge_alias_fold_pulses _ _ _
    · rfl

/-- After `store_threat_groups` the Pulse node list is empty: the run
starts with the full-graph wipe and the per-group merges never write Pulse
nodes. -/
theorem store_threat_groups_pulses (s : GraphState) (tgs : List PVal) :
    (store_threat_groups s tgs).1.pulses = [] := by
  unfold store_threat_groups
  exact runSteps_preserves (fun st => st.pulses) _ merge_threat_group_pulses tgs (wipeAll s)

/-- `merge_entity` does not change the Pulse node list. -/
theorem merge_entity_pulses (g : PVal) (s : GraphState) (e : PVal) :
    (merge_entity g s e).1.pulses = s.pulses := by
  unfold merge_entity
  repeat' split
  all_goals try rfl
  all_goals dsimp only
  all_goals split <;> rfl

/-- `merge_technique` does not change the Pulse node list. -/
theorem merge_technique_pulses (g : PVal) (tname : String) (s : GraphState) (tech : PVal) :
    (merge_technique g tname s tech).pulses = s.pulses := by
  unfold merge_technique
  dsimp only
  split <;> rfl

/-- The technique loop does not change the Pulse node list. -/
theorem tech_fold_pulses (g : PVal) (tname : String) (techs : List PVal) (s : GraphState) :
    (techs.foldl (merge_technique g tname) s).pulses = s.pulses := by
  induction techs generalizing s with
  | nil => rfl
  | cons t rest ih => rw [List.foldl_cons, ih, merge_technique_pulses]

/-- `merge_ttp` does not change the Pulse node list. -/
theorem merge_ttp_pulses (g : PVal) (s : GraphState) (p : String × PVal) :
    (merge_ttp g s p).1.pulses = s.pulses := by
  show (merge_ttp_techniques g p.1 p.2
    (merge_tactic_edge g p.1 (merge_tactic_node g p.1 s))).pulses = s.pulses
  have htech : ∀ s1 : GraphState,
      (merge_ttp_techniques g p.1 p.2 s1).pulses = s1.pulses := by
    intro s1
    unfold merge_ttp_techniques
    split
    · split
      · rw [tech_fold_pulses]
      · rfl
    · rfl
  have hedge : ∀ s1 : GraphState, (merge_tactic_edge g p.1 s1).pulses = s1.pulses := by
    intro s1
    unfold merge_tactic_edge
    split <;> rfl
  rw [htech, hedge]
  rfl

/-- The country block does not change the Pulse node list. -/
theorem merge_country_pulses (g cty : PVal) (s : GraphState) :
    (merge_country g cty s).1.pulses = s.pulses := by
  unfold merge_country
  repeat' split
  all_goals try rfl
  all_goals dsimp only
  all_goals split <;> rfl

/-- `store_pulsedive_info` does not change the Pulse node list. -/
theorem store_pulsedive_info_pulses (s : GraphState) (g rel cty ttps : PVal) :
    (store_pulsedive_info s g rel cty ttps).1.pulses = s.pulses := by
  unfold store_pulsedive_info
  rcases hc : merge_country g cty s with ⟨s1, e1⟩
  have h1 : s1.pulses = s.pulses := by
    have := merge_country_pulses g cty s
    rw [hc] at this
    exact this
  cases e1 with
  | some e => exact h1
  | none =>
    dsimp only
    cases hit : rel.iter with
    | error e => exact h1
    | ok entities =>
      dsimp only
      rcases hrs : runSteps (merge_entity g) s1 entities with ⟨s2, e2⟩
      have h2 : s2.pulses = s.pulses := by
        have := runSteps_preserves (fun st => st.pulses) _ (merge_entity_pulses g)
          entities s1
        rw [hrs] at this
        rw [this, h1]
      cases e2 with
      | some e => exact h2
      | none =>
        dsimp only
        cases hti : ttps.itemsOf with
        | error e => exact h2
        | ok pairs =>
          dsimp only
          rw [runSteps_preserves (fun st => st.pulses) _ (merge_ttp_pulses g) pairs s2, h2]

/-- `pulsedive_record` does not change the Pulse node list. -/
theorem pulsedive_record_pulses (g : PVal) (s : GraphState) (r : PVal) :
    (pulsedive_record g s r).1.pulses = s.pulses := by
  unfold pulsedive_record
  repeat' split
  all_goals first
    | rfl
    | apply store_pulsedive_info_pulses

/-- `fetch_pulsedive_info` does not change the Pulse node list. -/
theorem fetch_pulsedive_info_pulses (pd : PVal) (s : GraphState) (g : PVal) :
    (fetch_pulsedive_info pd s g).1.pulses = s.pulses := by
  unfold fetch_pulsedive_info
  split
  · exact runSteps_preserves (fun st => st.pulses) _ (pulsedive_record_pulses g) _ s
  · rfl

/-- C1: the per-group loop of `store_threat_group_data` invokes
`store_pulses` with four positional arguments (line 302) although
`store_pulses` is defined with three parameters (line 49), so — provided
the phases before the call succeed — the call raises `TypeError` while the
first group is processed, and pulse storage is never reached: the Pulse
node list, emptied by the initial wipe, is still empty when the run
aborts. -/
theorem c1_store_pulses_arity_typeerror (tgs : List PVal) (pdData : PVal)
    (pulsesOf : PVal → PVal) (s : GraphState) (g0 : PVal) (rest : List PVal) (gname : PVal)
    (htgs : tgs = g0 :: rest)
    (hsg : (store_threat_groups s tgs).2 = Option.none)
    (hname : PVal.get g0 "name" (PVal.str "Unknown") = Except.ok gname)
    (hfetch : (fetch_pulsedive_info pdData (store_threat_groups s tgs).1 gname).2 =
      Option.none) :
    (store_threat_group_data tgs pdData pulsesOf s).2 = some PyErr.typeError ∧
    (store_threat_group_data tgs pdData pulsesOf s).1.pulses = [] := by
  unfold store_threat_group_data
  rcases hsgr : store_threat_groups s tgs with ⟨s1, e1⟩
  rw [hsgr] at hsg hfetch
  simp only at hsg
  subst hsg
  dsimp only
  subst htgs
  unfold store_threat_group_data_loop
  rw [hname]
  dsimp only
  rw [List.any_nil]
  simp only [Bool.false_eq_true, if_false]
  rcases hf : fetch_pulsedive_info pdData s1 gname with ⟨s2, e2⟩
  rw [hf] at hfetch
  simp only at hfetch
  subst hfetch
  dsimp only
  have hcall : call_store_pulses_line302 s2 gname (pulsesOf gname) =
      (s2, some PyErr.typeError) := rfl
  rw [hcall]
  refine ⟨rfl, ?_⟩
  have hp2 : s2.pulses = s1.pulses := by
    have := fetch_pulsedive_info_pulses pdData s1 gname
    rw [hf] at this
    exact this
  have hp1 : s1.pulses = [] := by
    have := store_threat_groups_pulses s (g0 :: rest)
    rw [hsgr] at this
    exact this
  rw [hp2, hp1]

/-- C1 witness: the theorem applied to a one-group catalog, an empty
Pulsedive file and an arbitrary OTX response. -/
theorem c1_store_pulses_arity_typeerror_witness :
    (store_threat_group_data [PVal.dict [("name", PVal.str "G")]] (PVal.list [])
      (fun _ => PVal.dict []) GraphState.empty).2 = some PyErr.typeError ∧
    (store_threat_group_data [PVal.dict [("name", PVal.str "G")]] (PVal.list [])
      (fun _ => PVal.dict []) GraphState.empty).1.pulses = [] :=
  c1_store_pulses_arity_typeerror [PVal.dict [("name", PVal.str "G")]] (PVal.list [])
    (fun _ => PVal.dict []) GraphState.empty (PVal.dict [("name", PVal.str "G")]) []
    (PVal.str "G") rfl (by decide) rfl (by decide)

/-- Disagreement of `PVal.beq` is exactly propositional disequality. -/
theorem PVal.beq_eq_false_iff (a b : PVal) : PVal.beq a b = false ↔ a ≠ b := by
  constructor
  · intro h hab
    subst hab
    rw [PVal.beq_refl] at h
    cases h
  · intro h
    cases hb : PVal.beq a b
    · rfl
    · exact absurd ((PVal.beq_iff a b).mp hb) h

/-- An upsert leaves a filter untouched when the filter excludes the merge
key: rows hit by the merge fail the filter before and after the update, and
so does a freshly created node. -/
theorem upsertBy_filter_disjoint {α : Type} (p hit : α → Bool) (upd : α → α) (mk : α)
    (xs : List α)
    (h1 : ∀ x, hit x = true → p x = false)
    (h2 : ∀ x, hit x = true → p (upd x) = false)
    (h3 : p mk = false) :
    (upsertBy hit upd mk xs).filter p = xs.filter p := by
  have hmap : ∀ l : List α,
      List.filter p (l.map (fun x => if hit x then upd x else x)) = l.filter p := by
    intro l
    induction l with
    | nil => rfl
    | cons x rest ih =>
      simp only [List.map_cons, List.filter_cons]
      by_cases hx : hit x = true
      · simp [hx, h1 x hx, h2 x hx, ih]
      · simp only [hx, if_false, Bool.false_eq_true]
        cases hpx : p x <;> simp [hpx, ih]
  unfold upsertBy
  split
  · exact hmap xs
  · rw [List.filter_append]
    simp [List.filter_cons, h3]

/-- The `pulses` component of `merge_pulse` on a dictionary record is
exactly the Pulse upsert with the extracted (defaulted) attributes. -/
theorem merge_pulse_pulses_eq (s : GraphState) (g : PVal) (fields : List (String × PVal)) :
    (merge_pulse g s (PVal.dict fields)).1.pulses =
      upsertBy
        (pulse_hit ((PVal.lookupField "name" fields).getD (PVal.str "N/A")) g)
        (pulse_on_match g
          ((PVal.lookupField "description" fields).getD (PVal.str "No description available."))
          ((PVal.lookupField "created" fields).getD (PVal.str "N/A"))
          ((PVal.lookupField "malware_families" fields).getD (PVal.str "N/A"))
          ((PVal.lookupField "targeted_countries" fields).getD (PVal.str "N/A"))
          ((PVal.lookupField "industries" fields).getD (PVal.str "N/A")))
        (pulse_on_create ((PVal.lookupField "name" fields).getD (PVal.str "N/A")) g
          ((PVal.lookupField "id" fields).getD (PVal.str "N/A"))
          ((PVal.lookupField "description" fields).getD (PVal.str "No description available."))
          ((PVal.lookupField "created" fields).getD (PVal.str "N/A"))
          ((PVal.lookupField "malware_families" fields).getD (PVal.str "N/A"))
          ((PVal.lookupField "targeted_countries" fields).getD (PVal.str "N/A"))
          ((PVal.lookupField "industries" fields).getD (PVal.str "N/A")))
        s.pulses := by
  unfold merge_pulse
  simp only [PVal.get]
  unfold merge_pulse_edge
  split <;> rfl

/-- C3 counterexample: merging pulse name `P` under group `G1` and then
re-merging the same pulse name under group `G2` leaves TWO Pulse nodes —
the `MERGE` key is `(name, group)`, so no conflict ever arises — and no
stored pulse has the claimed combination of `group = G1` (first-write-wins)
with `description = d2` (from the latest merge). -/
theorem c3_counterexample :
    ((store_pulses
        ((store_pulses GraphState.empty (PVal.str "G1")
          (PVal.dict [("results", PVal.list [PVal.dict [("name", PVal.str "P"),
            ("description", PVal.str "d1"), ("created", PVal.str "c1")]])])).1)
        (PVal.str "G2")
        (PVal.dict [("results", PVal.list [PVal.dict [("name", PVal.str "P"),
          ("description", PVal.str "d2"), ("created", PVal.str "c2")]])])).1).pulses.length
      = 2 ∧
    ((store_pulses
        ((store_pulses GraphState.empty (PVal.str "G1")
          (PVal.dict [("results", PVal.list [PVal.dict [("name", PVal.str "P"),
            ("description", PVal.str "d1"), ("created", PVal.str "c1")]])])).1)
        (PVal.str "G2")
        (PVal.dict [("results", PVal.list [PVal.dict [("name", PVal.str "P"),
          ("description", PVal.str "d2"), ("created", PVal.str "c2")]])])).1).pulses.any
      (fun p => PVal.beq p.group (PVal.str "G1") && PVal.beq p.description (PVal.str "d2"))
      = false := by
  exact ⟨rfl, rfl⟩

/-- C3 amended: because the Pulse `MERGE` key is `(name, group)`, re-merging
a pulse name under a different owning group `g2` never touches the nodes
stored under `g1`: it upserts a separate `(name, g2)` node whose `group` is
`g2` and whose mutable attributes come from the latest merge.  First-write-
wins on `group` across groups never happens (the `ON MATCH` coalesce is a
no-op); last-write-wins applies only to re-merges under the same
`(name, group)` key. -/
theorem c3_remerge_creates_second_node (s : GraphState) (g1 g2 : PVal)
    (fields : List (String × PVal)) (n : PVal)
    (hne : PVal.beq g1 g2 = false) :
    ((merge_pulse g2 s (PVal.dict fields)).1.pulses.filter
        (fun p => PVal.beq p.name n && PVal.beq p.group g1) =
      s.pulses.filter (fun p => PVal.beq p.name n && PVal.beq p.group g1)) ∧
    (∀ p ∈ (merge_pulse g2 s (PVal.dict fields)).1.pulses,
      (PVal.beq p.name ((PVal.lookupField "name" fields).getD (PVal.str "N/A")) &&
        PVal.beq p.group g2) = true →
      p.group = g2 ∧
      p.description = (PVal.lookupField "description" fields).getD
        (PVal.str "No description available.") ∧
      p.created = (PVal.lookupField "created" fields).getD (PVal.str "N/A")) ∧
    ((merge_pulse g2 s (PVal.dict fields)).1.pulses.any
      (fun p => PVal.beq p.name ((PVal.lookupField "name" fields).getD (PVal.str "N/A")) &&
        PVal.beq p.group g2) = true) := by
  have hne2 : g1 ≠ g2 := (PVal.beq_eq_false_iff g1 g2).mp hne
  have hg21 : PVal.beq g2 g1 = false := (PVal.beq_eq_false_iff g2 g1).mpr (Ne.symm hne2)
  set nameV := (PVal.lookupField "name" fields).getD (PVal.str "N/A") with hnameV
  set descV := (PVal.lookupField "description" fields).getD
    (PVal.str "No description available.") with hdescV
  set createdV := (PVal.lookupField "created" fields).getD (PVal.str "N/A") with hcreatedV
  have honmatch_group : ∀ x : PulseNode, x.group = g2 →
      (pulse_on_match g2 descV createdV
        ((PVal.lookupField "malware_families" fields).getD (PVal.str "N/A"))
        ((PVal.lookupField "targeted_countries" fields).getD (PVal.str "N/A"))
        ((PVal.lookupField "industries" fields).getD (PVal.str "N/A")) x).group = g2 := by
    intro x hx
    unfold pulse_on_match
    simp only
    rw [hx, coalesceP_self]
  refine ⟨?_, ?_, ?_⟩
  · rw [merge_pulse_pulses_eq]
    apply upsertBy_filter_disjoint
    · intro x hx
      unfold pulse_hit at hx
      simp only [Bool.and_eq_true] at hx
      have hb : PVal.beq x.group g1 = false := by
        rw [(PVal.beq_iff _ _).mp hx.2]
        exact hg21
      simp [hb]
    · intro x hx
      unfold pulse_hit at hx
      simp only [Bool.and_eq_true] at hx
      have hb : PVal.beq (pulse_on_match g2 descV createdV
          ((PVal.lookupField "malware_families" fields).getD (PVal.str "N/A"))
          ((PVal.lookupField "targeted_countries" fields).getD (PVal.str "N/A"))
          ((PVal.lookupField "industries" fields).getD (PVal.str "N/A")) x).group g1
          = false := by
        rw [honmatch_group x ((PVal.beq_iff _ _).mp hx.2)]
        exact hg21
      simp [hb]
    · have hb : PVal.beq (pulse_on_create nameV g2
          ((PVal.lookupField "id" fields).getD (PVal.str "N/A")) descV createdV
          ((PVal.lookupField "malware_families" fields).getD (PVal.str "N/A"))
          ((PVal.lookupField "targeted_countries" fields).getD (PVal.str "N/A"))
          ((PVal.lookupField "industries" fields).getD (PVal.str "N/A"))).group g1
          = false := hg21
      simp [hb]
  · rw [merge_pulse_pulses_eq]
    intro p hp hkey
    unfold upsertBy at hp
    by_cases hany : s.pulses.any (pulse_hit nameV g2) = true
    · rw [if_pos hany] at hp
      obtain ⟨x, hxmem, hfx⟩ := List.mem_map.mp hp
      by_cases hx : pulse_hit nameV g2 x = true
      · rw [if_pos hx] at hfx
        subst hfx
        unfold pulse_hit at hx
        simp only [Bool.and_eq_true] at hx
        refine ⟨honmatch_group x ((PVal.beq_iff _ _).mp hx.2), rfl, rfl⟩
      · rw [if_neg hx] at hfx
        subst hfx
        exact absurd hkey hx
    · rw [if_neg hany] at hp
      rcases List.mem_append.mp hp with hmem | hmk
      · have : pulse_hit nameV g2 p = false := by
          cases hb : pulse_hit nameV g2 p
          · rfl
          · exact absurd (List.any_eq_true.mpr ⟨p, hmem, hb⟩) hany
        exact absurd hkey (by rw [show pulse_hit nameV g2 p = (PVal.beq p.name nameV &&
          PVal.beq p.group g2) from rfl] at this; simp [this])
      · have hpmk : p = pulse_on_create nameV g2
            ((PVal.lookupField "id" fields).getD (PVal.str "N/A")) descV createdV
            ((PVal.lookupField "malware_families" fields).getD (PVal.str "N/A"))
            ((PVal.lookupField "targeted_countries" fields).getD (PVal.str "N/A"))
            ((PVal.lookupField "industries" fields).getD (PVal.str "N/A")) := by
          simpa using hmk
        subst hpmk
        exact ⟨rfl, rfl, rfl⟩
  · rw [merge_pulse_pulses_eq]
    unfold upsertBy
    by_cases hany : s.pulses.any (pulse_hit nameV g2) = true
    · rw [if_pos hany]
      obtain ⟨x, hxmem, hx⟩ := List.any_eq_true.mp hany
      apply List.any_eq_true.mpr
      refine ⟨(if pulse_hit nameV g2 x then pulse_on_match g2 descV createdV
        ((PVal.lookupField "malware_families" fields).getD (PVal.str "N/A"))
        ((PVal.lookupField "targeted_countries" fields).getD (PVal.str "N/A"))
        ((PVal.lookupField "industries" fields).getD (PVal.str "N/A")) x else x),
        List.mem_map.mpr ⟨x, hxmem, rfl⟩, ?_⟩
      rw [if_pos hx]
      unfold pulse_hit at hx
      simp only [Bool.and_eq_true] at hx
      have h1 : (pulse_on_match g2 descV createdV
          ((PVal.lookupField "malware_families" fields).getD (PVal.str "N/A"))
          ((PVal.lookupField "targeted_countries" fields).getD (PVal.str "N/A"))
          ((PVal.lookupField "industries" fields).getD (PVal.str "N/A")) x).name = x.name :=
        rfl
      rw [h1, honmatch_group x ((PVal.beq_iff _ _).mp hx.2), hx.1, PVal.beq_refl]
      rfl
    · rw [if_neg hany]
      apply List.any_eq_true.mpr
      refine ⟨pulse_on_create nameV g2
        ((PVal.lookupField "id" fields).getD (PVal.str "N/A")) descV createdV
        ((PVal.lookupField "malware_families" fields).getD (PVal.str "N/A"))
        ((PVal.lookupField "targeted_countries" fields).getD (PVal.str "N/A"))
        ((PVal.lookupField "industries" fields).getD (PVal.str "N/A")),
        List.mem_append.mpr (Or.inr (List.mem_singleton.mpr rfl)), ?_⟩
      rw [show (pulse_on_create nameV g2
        ((PVal.lookupField "id" fields).getD (PVal.str "N/A")) descV createdV
        ((PVal.lookupField "malware_families" fields).getD (PVal.str "N/A"))
        ((PVal.lookupField "targeted_countries" fields).getD (PVal.str "N/A"))
        ((PVal.lookupField "industries" fields).getD (PVal.str "N/A"))).name = nameV from rfl]
      rw [PVal.beq_refl]
      rw [show (pulse_on_create nameV g2
        ((PVal.lookupField "id" fields).getD (PVal.str "N/A")) descV createdV
        ((PVal.lookupField "malware_families" fields).getD (PVal.str "N/A"))
        ((PVal.lookupField "targeted_countries" fields).getD (PVal.str "N/A"))
        ((PVal.lookupField "industries" fields).getD (PVal.str "N/A"))).group = g2 from rfl]
      rw [PVal.beq_refl]
      rfl

/-- C3 witness: the amended theorem applied to the counterexample input —
the node stored under `G1` (with description `d1`) is untouched by the
re-merge under `G2`. -/
theorem c3_remerge_creates_second_node_witness :
    ((merge_pulse (PVal.str "G2")
        ((store_pulses GraphState.empty (PVal.str "G1")
          (PVal.dict [("results", PVal.list [PVal.dict [("name", PVal.str "P"),
            ("description", PVal.str "d1"), ("created", PVal.str "c1")]])])).1)
        (PVal.dict [("name", PVal.str "P"), ("description", PVal.str "d2"),
          ("created", PVal.str "c2")])).1.pulses.filter
      (fun p => PVal.beq p.name (PVal.str "P") && PVal.beq p.group (PVal.str "G1"))) =
    (((store_pulses GraphState.empty (PVal.str "G1")
        (PVal.dict [("results", PVal.list [PVal.dict [("name", PVal.str "P"),
          ("description", PVal.str "d1"), ("created", PVal.str "c1")]])])).1).pulses.filter
      (fun p => PVal.beq p.name (PVal.str "P") && PVal.beq p.group (PVal.str "G1"))) :=
  (c3_remerge_creates_second_node _ (PVal.str "G1") (PVal.str "G2") _ (PVal.str "P")
    rfl).1

/-- The per-group fold of `classify_threats` appends to the inactive list
exactly the groups satisfying the `if` predicate, and to the emerging list
exactly those satisfying the `elif` branch as actually reached. -/
theorem classify_fold_characterization (now : DateTime) (df : List (String × DateTime)) :
    ∀ (gs : List String) (acc : List String × List String),
      gs.foldl (classify_step now df) acc =
        (acc.1 ++ gs.filter (is_inactive now df),
         acc.2 ++ gs.filter (is_emerging_only now df)) := by
  intro gs
  induction gs with
  | nil => intro acc; simp
  | cons g rest ih =>
    intro acc
    rw [List.foldl_cons, ih]
    simp only [List.filter_cons]
    cases hts : group_timestamps df g with
    | nil =>
      have hia : is_inactive now df g = false := by
        unfold is_inactive
        rw [hts]
      have hem : is_emerging_only now df g = false := by
        unfold is_emerging_only
        rw [hts]
      have hstep : classify_step now df acc g = acc := by
        unfold classify_step
        rw [hts]
      rw [hia, hem, hstep]
      simp
    | cons t0 tr =>
      have hia : is_inactive now df g = decide (tr.foldl max t0 < inactive_cutoff now) := by
        unfold is_inactive
        rw [hts]
      have hem : is_emerging_only now df g =
          (!decide (tr.foldl max t0 < inactive_cutoff now) &&
            (decide (emerging_first_cutoff now < tr.foldl min t0) &&
              decide (emerging_recent_cutoff now < tr.foldl max t0))) := by
        unfold is_emerging_only
        rw [hts]
      have hstep : classify_step now df acc g =
          (if tr.foldl max t0 < inactive_cutoff now then (acc.1 ++ [g], acc.2)
           else if emerging_first_cutoff now < tr.foldl min t0 ∧
               emerging_recent_cutoff now < tr.foldl max t0 then (acc.1, acc.2 ++ [g])
           else acc) := by
        unfold classify_step
        rw [hts]
        by_cases h1 : tr.foldl max t0 < inactive_cutoff now
        · simp [h1]
        · simp only [h1, if_false]
          by_cases h2 : emerging_first_cutoff now < tr.foldl min t0
          · by_cases h3 : emerging_recent_cutoff now < tr.foldl max t0
            · simp [h2, h3]
            · simp [h2, h3]
          · simp [h2]
      rw [hia, hem, hstep]
      by_cases h1 : tr.foldl max t0 < inactive_cutoff now
      · simp [h1]
      · simp only [h1, if_false, decide_eq_true_eq]
        by_cases h2 : emerging_first_cutoff now < tr.foldl min t0
        · by_cases h3 : emerging_recent_cutoff now < tr.foldl max t0
          · simp [h1, h2, h3]
          · simp [h1, h2, h3]
        · simp [h1, h2]

/-- A group in the `elif` branch was not in the `if` branch. -/
theorem is_emerging_only_not_inactive (now : DateTime) (df : List (String × DateTime))
    (g : String) (h : is_emerging_only now df g = true) : is_inactive now df g = false := by
  unfold is_emerging_only at h
  unfold is_inactive
  cases hts : group_timestamps df g with
  | nil => rfl
  | cons t0 tr =>
    rw [hts] at h
    simp only [Bool.and_eq_true, Bool.not_eq_eq_eq_not, Bool.not_true] at h
    dsimp only
    rw [h.1]

/-- The two lists returned by `classify_threats`, written through the
characterization of the fold. -/
theorem classify_threats_eq_filters (now : DateTime) (df : List (String × DateTime)) :
    classify_threats now df =
      ((List.insertionSort (fun a b => strLeB a b = true) (df.map Prod.fst).dedup).filter
        (is_inactive now df),
       (List.insertionSort (fun a b => strLeB a b = true) (df.map Prod.fst).dedup).filter
        (is_emerging_only now df)) := by
  unfold classify_threats
  rw [classify_fold_characterization]
  simp

/-- C9: for every input table the two lists returned by `classify_threats`
are disjoint — a group is appended to the emerging list only in the `elif`
branch, reached when the inactive test failed — and a group satisfying the
inactive predicate (in particular any group satisfying both predicates) is
classified inactive only. -/
theorem c9_classification_disjoint :
    (∀ (now : DateTime) (df : List (String × DateTime)) (g : String),
      g ∈ (classify_threats now df).1 → g ∉ (classify_threats now df).2) ∧
    (∀ (now : DateTime) (df : List (String × DateTime)) (g : String),
      g ∈ df.map Prod.fst → is_inactive now df g = true →
      g ∈ (classify_threats now df).1 ∧ g ∉ (classify_threats now df).2) := by
  constructor
  · intro now df g h1 h2
    rw [classify_threats_eq_filters] at h1 h2
    have hia : is_inactive now df g = true := (List.mem_filter.mp h1).2
    have hem : is_emerging_only now df g = true := (List.mem_filter.mp h2).2
    rw [is_emerging_only_not_inactive now df g hem] at hia
    cases hia
  · intro now df g hmem hia
    rw [classify_threats_eq_filters]
    have hg : g ∈ List.insertionSort (fun a b => strLeB a b = true) (df.map Prod.fst).dedup :=
      (List.mem_insertionSort _).mpr (List.mem_dedup.mpr hmem)
    constructor
    · exact List.mem_filter.mpr ⟨hg, hia⟩
    · intro hcon
      have hem : is_emerging_only now df g = true := (List.mem_filter.mp hcon).2
      rw [is_emerging_only_not_inactive now df g hem] at hia
      cases hia

/-- C9 witness: for a group whose only pulse is from 2017, evaluated at
2025-01-01, the second part of the theorem applies — the group is in the
inactive list and not in the emerging list. -/
theorem c9_classification_disjoint_witness :
    "G" ∈ (classify_threats ⟨2025, 1, 1, 0, 0, 0, 0⟩
      [("G", ⟨2017, 1, 1, 0, 0, 0, 0⟩)]).1 ∧
    "G" ∉ (classify_threats ⟨2025, 1, 1, 0, 0, 0, 0⟩
      [("G", ⟨2017, 1, 1, 0, 0, 0, 0⟩)]).2 :=
  c9_classification_disjoint.2 ⟨2025, 1, 1, 0, 0, 0, 0⟩ [("G", ⟨2017, 1, 1, 0, 0, 0, 0⟩)]
    "G" (by decide) (by decide)

/-- Membership in a Boolean `contains` for index lists. -/
theorem contains_iff_mem_nat (l : List Nat) (i : Nat) : l.contains i = true ↔ i ∈ l := by
  induction l with
  | nil => simp
  | cons x rest ih =>
    simp [List.contains_cons, ih]

/-- Membership in the index set built by the insert-if-absent fold of
`outlier_step`. -/
theorem idx_fold_mem (l : List DFRow) (idxs : List Nat) (i : Nat) :
    (i ∈ l.foldl (fun idxs r => if idxs.contains r.1 then idxs else idxs ++ [r.1]) idxs) ↔
      (i ∈ idxs ∨ ∃ q ∈ l, q.1 = i) := by
  induction l generalizing idxs with
  | nil => simp
  | cons r rest ih =>
    rw [List.foldl_cons, ih]
    by_cases h : idxs.contains r.1 = true
    · simp only [h, if_true]
      constructor
      · rintro (hi | ⟨q, hq, hqi⟩)
        · exact Or.inl hi
        · exact Or.inr ⟨q, List.mem_cons_of_mem _ hq, hqi⟩
      · rintro (hi | ⟨q, hq, hqi⟩)
        · exact Or.inl hi
        · rcases List.mem_cons.mp hq with hq1 | hq2
          · subst hq1
            exact Or.inl (hqi ▸ (contains_iff_mem_nat idxs q.1).mp h)
          · exact Or.inr ⟨q, hq2, hqi⟩
    · simp only [h, if_false, Bool.false_eq_true]
      constructor
      · rintro (hi | ⟨q, hq, hqi⟩)
        · rcases List.mem_append.mp hi with hi1 | hi2
          · exact Or.inl hi1
          · exact Or.inr ⟨r, List.mem_cons_self r rest, (List.mem_singleton.mp hi2).symm⟩
        · exact Or.inr ⟨q, List.mem_cons_of_mem _ hq, hqi⟩
      · rintro (hi | ⟨q, hq, hqi⟩)
        · exact Or.inl (List.mem_append.mpr (Or.inl hi))
        · rcases List.mem_cons.mp hq with hq1 | hq2
          · subst hq1
            exact Or.inl (List.mem_append.mpr (Or.inr (List.mem_singleton.mpr hqi.symm)))
          · exact Or.inr ⟨q, hq2, hqi⟩

/-- Membership in the accumulated outlier-index set after the per-column
loop: an index is collected exactly when some checked column flags a row
with that index. -/
theorem cols_fold_idx_mem (df : List DFRow) (i : Nat) :
    ∀ (cols : List String) (acc : List (String × List DFRow) × List Nat),
      (i ∈ (cols.foldl (outlier_step df) acc).2) ↔
        (i ∈ acc.2 ∨ ∃ c ∈ cols, ∃ q ∈ df, q.1 = i ∧ isOutlierIn df c q = true) := by
  intro cols
  induction cols with
  | nil => intro acc; simp
  | cons c rest ih =>
    intro acc
    rw [List.foldl_cons, ih]
    have hstep : (i ∈ (outlier_step df acc c).2) ↔
        (i ∈ acc.2 ∨ ∃ q ∈ df, q.1 = i ∧ isOutlierIn df c q = true) := by
      unfold outlier_step
      rw [idx_fold_mem]
      constructor
      · rintro (hi | ⟨q, hq, hqi⟩)
        · exact Or.inl hi
        · have := List.mem_filter.mp hq
          exact Or.inr ⟨q, this.1, hqi, this.2⟩
      · rintro (hi | ⟨q, hq, hqi, hout⟩)
        · exact Or.inl hi
        · exact Or.inr ⟨q, List.mem_filter.mpr ⟨hq, hout⟩, hqi⟩
    rw [hstep]
    constructor
    · rintro (hi | ⟨col, hcol, hrest⟩)
      · rcases hi with hi | ⟨q, hq, hqi, hout⟩
        · exact Or.inl hi
        · exact Or.inr ⟨c, List.mem_cons_self c rest, q, hq, hqi, hout⟩
      · exact Or.inr ⟨col, List.mem_cons_of_mem _ hcol, hrest⟩
    · rintro (hi | ⟨col, hcol, q, hq, hqi, hout⟩)
      · exact Or.inl (Or.inl hi)
      · rcases List.mem_cons.mp hcol with hc1 | hc2
        · subst hc1
          exact Or.inl (Or.inr ⟨q, hq, hqi, hout⟩)
        · exact Or.inr ⟨col, hc2, q, hq, hqi, hout⟩

/-- C7: `detect_outliers` removes exactly the rows whose index is flagged by
the IQR rule on at least one checked column (the per-column outlier index
sets are unioned before dropping); and on the column values
`[1,2,2,3,3,3,4,4,100]` exactly the row holding 100 is removed and reported. -/
theorem c7_detect_outliers_iqr :
    (∀ (df : List DFRow) (columns : List String) (r : DFRow),
      r ∈ (detect_outliers df columns).1 ↔
        (r ∈ df ∧ ¬ ∃ c ∈ columns, ∃ q ∈ df, q.1 = r.1 ∧ isOutlierIn df c q = true)) ∧
    detect_outliers
      [(0, [("x", 1)]), (1, [("x", 2)]), (2, [("x", 2)]), (3, [("x", 3)]),
       (4, [("x", 3)]), (5, [("x", 3)]), (6, [("x", 4)]), (7, [("x", 4)]),
       (8, [("x", 100)])] ["x"] =
    ([(0, [("x", 1)]), (1, [("x", 2)]), (2, [("x", 2)]), (3, [("x", 3)]),
      (4, [("x", 3)]), (5, [("x", 3)]), (6, [("x", 4)]), (7, [("x", 4)])],
     [("x", [(8, [("x", 100)])])]) := by
  refine ⟨?_, rfl⟩
  intro df columns r
  unfold detect_outliers
  rw [List.mem_filter]
  have hmem : (!(columns.foldl (outlier_step df) ([], [])).2.contains r.1) = true ↔
      ¬ ∃ c ∈ columns, ∃ q ∈ df, q.1 = r.1 ∧ isOutlierIn df c q = true := by
    rw [Bool.not_eq_true']
    constructor
    · intro h hex
      have : r.1 ∈ (columns.foldl (outlier_step df) ([], [])).2 :=
        (cols_fold_idx_mem df r.1 columns ([], [])).mpr (Or.inr hex)
      rw [(contains_iff_mem_nat _ _).mpr this] at h
      cases h
    · intro h
      cases hc : (columns.foldl (outlier_step df) ([], [])).2.contains r.1
      · rfl
      · have := (cols_fold_idx_mem df r.1 columns ([], [])).mp
          ((contains_iff_mem_nat _ _).mp hc)
        rcases this with h0 | hex
        · cases h0
        · exact absurd hex h
  rw [hmem]

/-- Counting occurrences does not depend on which lawful Boolean equality
instance is in scope. -/
theorem count_instances_eq {α : Type} [BEq α] [LawfulBEq α] [DecidableEq α]
    (a : α) (l : List α) :
    l.count a = @List.count α instBEqOfDecidableEq a l := by
  induction l with
  | nil => rfl
  | cons x rest ih =>
    rw [List.count_cons, @List.count_cons α instBEqOfDecidableEq, ih]
    by_cases h : x = a <;> simp [h]

/-- Dividing each mapped value by a constant divides the sum. -/
theorem list_sum_map_div {α : Type} (l : List α) (f : α → ℚ) (d : ℚ) :
    (l.map (fun x => f x / d)).sum = (l.map f).sum / d := by
  induction l with
  | nil => simp
  | cons x rest ih => simp [ih, add_div]

/-- C8: for every month present in the grouped pulse data, the PMF values
computed for that month — the number of grouped rows with each observed
per-group pulse count, divided by the number of grouped rows of the month —
sum to exactly 1 (the model computes in exact rationals, so the
floating-point tolerance of the claim is not needed). -/
theorem c8_pmf_per_month_sums_to_one (raw : List (String × String)) (ym : Nat × Nat)
    (hym : ∃ row ∈ process_data_grouped raw, row.1 = ym) :
    (((pmf_pulse_counts (process_data_grouped raw)).filter (fun e => e.1 == ym)).map
      (fun e => e.2.2)).sum = 1 := by
  unfold pmf_pulse_counts
  set G := process_data_grouped raw with hG
  set pairs := G.map (fun r => (r.1, r.2.2)) with hpairs
  set D : ℚ := ((G.countP (fun r => r.1 == ym) : Nat) : ℚ) with hD
  set L := List.insertionSort (fun a b => ymCountLeB a b = true) pairs.dedup with hL
  have h1 : (L.map (fun k =>
      ((k.1 : Nat × Nat), k.2, (pairs.count k : ℚ) /
        ((G.countP (fun r => r.1 == k.1) : Nat) : ℚ)))).filter (fun e => e.1 == ym) =
      (L.filter (fun k => k.1 == ym)).map (fun k =>
        ((k.1 : Nat × Nat), k.2, (pairs.count k : ℚ) /
          ((G.countP (fun r => r.1 == k.1) : Nat) : ℚ))) := by
    rw [List.filter_map]
    rfl
  rw [h1, List.map_map]
  have h2 : ((L.filter (fun k => k.1 == ym)).map
      ((fun e : (Nat × Nat) × Nat × ℚ => e.2.2) ∘ (fun k =>
        ((k.1 : Nat × Nat), k.2, (pairs.count k : ℚ) /
          ((G.countP (fun r => r.1 == k.1) : Nat) : ℚ))))) =
      ((L.filter (fun k => k.1 == ym)).map (fun k => (pairs.count k : ℚ) / D)) := by
    apply List.map_congr_left
    intro k hk
    have hkym : k.1 = ym := by
      have := (List.mem_filter.mp hk).2
      exact eq_of_beq this
    simp only [Function.comp_apply, hkym, hD]
  rw [h2, list_sum_map_div]
  have h3 : ((L.filter (fun k => k.1 == ym)).map (fun k => (pairs.count k : ℚ))).sum =
      (((L.filter (fun k => k.1 == ym)).map (fun k => pairs.count k)).sum : Nat) := by
    rw [Nat.cast_list_sum, List.map_map]
    rfl
  rw [h3]
  have hperm : ((L.filter (fun k => k.1 == ym)).map (fun k => pairs.count k)).Perm
      ((pairs.dedup.filter (fun k => k.1 == ym)).map (fun k => pairs.count k)) :=
    ((List.perm_insertionSort _ pairs.dedup).filter _).map _
  rw [hperm.sum_eq]
  have hcnt_eq : (List.map (fun k => List.count k pairs)
      (List.filter (fun k => k.1 == ym) pairs.dedup)) =
      (List.map (fun k => @List.count _ instBEqOfDecidableEq k pairs)
      (List.filter (fun k => k.1 == ym) pairs.dedup)) := by
    apply List.map_congr_left
    intro k _
    exact count_instances_eq k pairs
  rw [hcnt_eq, List.sum_map_count_dedup_filter_eq_countP]
  have h4 : pairs.countP (fun k => k.1 == ym) = G.countP (fun r => r.1 == ym) := by
    rw [hpairs, List.countP_map]
    rfl
  rw [h4]
  have hpos : 0 < G.countP (fun r => r.1 == ym) := by
    rw [List.countP_pos_iff]
    obtain ⟨row, hmem, hrow⟩ := hym
    exact ⟨row, hmem, by rw [hrow]; simp⟩
  have hDne : D ≠ 0 := by
    intro hc
    rw [hD] at hc
    have := Nat.cast_eq_zero.mp hc
    omega
  rw [hD] at hDne ⊢
  exact div_self hDne

/-- C8 witness: two groups each with one pulse in January 2023 (both rows in
the fractional-second format so that they survive parsing); the month
(2023, 1) is present and its PMF values sum to 1. -/
theorem c8_pmf_per_month_sums_to_one_witness :
    (((pmf_pulse_counts (process_data_grouped
        [("A", "2023-01-01T00:00:00.0"), ("B", "2023-01-15T12:00:00.0")])).filter
      (fun e => e.1 == ((2023, 1) : Nat × Nat))).map (fun e => e.2.2)).sum = 1 :=
  c8_pmf_per_month_sums_to_one
    [("A", "2023-01-01T00:00:00.0"), ("B", "2023-01-15T12:00:00.0")] (2023, 1)
    ⟨((2023, 1), "A", 1), by decide, rfl⟩
